import Mathlib

/-!
# OpAMP client core (`client/internal`): a shallow embedding

The embedding follows `clientcommon.go`, `wssender.go` and `wsreceiver.go`.  Go pointers
to protobuf messages are `Option` values, the `error` result of a method is an `Outcome`,
and a method that mutates its receiver returns the receiver's new value.  Capability masks
and flags are the `int32` values of the Go enums, kept as `Int`.  The two background loops
are functions of the events that wake them, in order.
-/

namespace OpAMP

/-! ## Errors and outcomes -/

/-- The error values named in `clientcommon.go`, the ones it takes from package `types`
and from the state store, wrapped errors (`fmt.Errorf` with `%w`), errors produced by
collaborators (provider, callbacks, sender, connection, codec) and the close errors of the
WebSocket library (`*websocket.CloseError`, with their code). -/
inductive Error where
  | ErrAgentDescriptionMissing
  | ErrAgentDescriptionNoAttributes
  | ErrHealthMissing
  | ErrReportsEffectiveConfigNotSet
  | ErrReportsRemoteConfigNotSet
  | ErrPackagesStateProviderNotSet
  | ErrAcceptsPackagesNotSet
  | errAlreadyStarted
  | errCannotStopNotStarted
  | errReportsPackageStatusesNotSet
  | errLastRemoteConfigHashNil
  | errServerProvidedAllPackagesHashNil
  | ErrCustomMessageMissing
  | ErrCustomCapabilityNotSupported
  | ErrCustomMessagePending
  | wrapped (text : String) (cause : Error)
  | collaborator (text : String)
  | closeError (code : Nat)
  deriving DecidableEq, Repr

/-- What a call of a method with an `error` result does: it returns `nil`, returns an
error, or panics (dereference of a nil pointer, call through a nil interface or func). -/
inductive Outcome where
  | nil
  | err (e : Error)
  | panic
  deriving DecidableEq, Repr

/-! ## Protobuf messages

Package `protobufs` is not among the sources.  The messages carry the fields the client
core reads or writes; payloads it never inspects are kept small. -/

/-- Modelled from the spec: one attribute of an agent description (package `protobufs`). -/
structure KeyValue where
  Key : String
  Value : String
  deriving DecidableEq, Repr

/-- Modelled from the spec: `AgentDescription`, "identifying attributes" (package
`protobufs`). -/
structure AgentDescription where
  IdentifyingAttributes : List KeyValue
  NonIdentifyingAttributes : List KeyValue
  deriving DecidableEq, Repr

/-- Modelled from the spec: `Health`, "component health snapshot" (package `protobufs`). -/
structure ComponentHealth where
  Healthy : Bool
  StartTimeUnixNano : Nat
  LastError : String
  deriving DecidableEq, Repr

/-- Modelled from the spec: the status enum of `RemoteConfigStatus` (package
`protobufs`). -/
inductive RemoteConfigStatuses where
  | UNSET
  | APPLIED
  | APPLYING
  | FAILED
  deriving DecidableEq, Repr

/-- Modelled from the spec: `RemoteConfigStatus`, "last-applied-config hash + status enum"
(package `protobufs`).  The hash is a Go byte slice, `none` being the nil slice. -/
structure RemoteConfigStatus where
  LastRemoteConfigHash : Option (List Nat)
  Status : RemoteConfigStatuses
  ErrorMessage : String
  deriving DecidableEq, Repr

/-- Modelled from the spec: the status of one package (package `protobufs`). -/
structure PackageStatus where
  Name : String
  AgentHasVersion : String
  Status : Nat
  ErrorMessage : String
  deriving DecidableEq, Repr

/-- Modelled from the spec: `PackageStatuses`, "per-package status map + an overall
server-provided hash" (package `protobufs`).  The map is a list of entries, the hash a Go
byte slice with `none` the nil slice. -/
structure PackageStatuses where
  Packages : List (String × PackageStatus)
  ServerProvidedAllPackagesHash : Option (List Nat)
  ErrorMessage : String
  deriving DecidableEq, Repr

/-- Modelled from the spec: `CustomCapabilities`, "the set of custom message capability
identifiers the agent currently advertises" (package `protobufs`). -/
structure CustomCapabilities where
  Capabilities : List String
  deriving DecidableEq, Repr

/-- Modelled from the spec: a custom message with its capability identifier (package
`protobufs`). -/
structure CustomMessage where
  Capability : String
  MessageType : String
  Data : List Nat
  deriving DecidableEq, Repr

/-- Modelled from the spec: the effective configuration the callback returns, "bytes"
(package `protobufs`). -/
structure EffectiveConfig where
  ConfigMap : List (String × List Nat)
  deriving DecidableEq, Repr

/-- Modelled from the spec: a request for connection settings, a payload the client core
only forwards (package `protobufs`). -/
structure ConnectionSettingsRequest where
  Request : List Nat
  deriving DecidableEq, Repr

/-- Modelled from the spec: the outbound protocol message (package `protobufs`), with
every field `clientcommon.go` assigns, the instance uid and the sequence number. -/
structure AgentToServer where
  InstanceUid : String
  SequenceNum : Nat
  AgentDescription : Option AgentDescription
  Capabilities : Nat
  Health : Option ComponentHealth
  EffectiveConfig : Option EffectiveConfig
  RemoteConfigStatus : Option RemoteConfigStatus
  PackageStatuses : Option PackageStatuses
  Flags : Nat
  ConnectionSettingsRequest : Option ConnectionSettingsRequest
  CustomCapabilities : Option CustomCapabilities
  CustomMessage : Option CustomMessage
  deriving DecidableEq, Repr

/-- The zero value `&protobufs.AgentToServer{}`. -/
def AgentToServer.empty : AgentToServer :=
  { InstanceUid := "", SequenceNum := 0, AgentDescription := none, Capabilities := 0,
    Health := none, EffectiveConfig := none, RemoteConfigStatus := none,
    PackageStatuses := none, Flags := 0, ConnectionSettingsRequest := none,
    CustomCapabilities := none, CustomMessage := none }

/-- Go's conversion `uint64(x)` of an `int32` value: sign extension, the value modulo
`2^64`. -/
def uint64 (x : Int) : Nat := (x % 2 ^ 64).toNat

/-! ## `proto.Equal` -/

/-- Equality of two byte slices as `proto.Equal` sees them: nil and empty are equal. -/
def bytesEqual (a b : Option (List Nat)) : Bool := a.getD [] == b.getD []

/-- Equality of two maps given as entry lists: every key of either has the same value
in both. -/
def mapEqual (a b : List (String × PackageStatus)) : Bool :=
  (a.map Prod.fst ++ b.map Prod.fst).all (fun k => a.lookup k == b.lookup k)

/-- Field-wise `proto.Equal` on two valid `RemoteConfigStatus` messages. -/
def RemoteConfigStatus.equal (a b : RemoteConfigStatus) : Bool :=
  bytesEqual a.LastRemoteConfigHash b.LastRemoteConfigHash
    && decide (a.Status = b.Status) && a.ErrorMessage == b.ErrorMessage

/-- Field-wise `proto.Equal` on two valid `PackageStatuses` messages. -/
def PackageStatuses.equal (a b : PackageStatuses) : Bool :=
  mapEqual a.Packages b.Packages
    && bytesEqual a.ServerProvidedAllPackagesHash b.ServerProvidedAllPackagesHash
    && a.ErrorMessage == b.ErrorMessage

/-- The library function `proto.Equal` on two message pointers of one type: a nil pointer
equals only a nil pointer, two valid messages are compared field by field. -/
def protoEqual {α : Type} (eq : α → α → Bool) : Option α → Option α → Bool
  | none, none => true
  | some a, some b => eq a b
  | _, _ => false

/-! ## Declarations the sources use and do not contain -/

/-- The declarations of the repository that `clientcommon.go` uses and that are not among
the sources, taken as a parameter: the capability bit masks of package `protobufs`, the
required-shape rule of each setter of the state store (`none` accepts the value,
`some e` rejects it with `e`), and the rule of the sender's identity setter. -/
structure Deps where
  ReportsStatus : Int
  ReportsEffectiveConfig : Int
  AcceptsPackages : Int
  ReportsPackageStatuses : Int
  ReportsHealth : Int
  ReportsRemoteConfig : Int
  shapeAgentDescription : Option AgentDescription → Option Error
  shapeHealth : Option ComponentHealth → Option Error
  shapeRemoteConfigStatus : Option RemoteConfigStatus → Option Error
  shapePackageStatuses : Option PackageStatuses → Option Error
  shapeCustomCapabilities : Option CustomCapabilities → Option Error
  shapeInstanceUid : String → Option Error

/-! ## The state store (`ClientSyncedState`) -/

/-- Modelled from the spec: SyncedState, "the single source of truth for agent-reported
fields (description, health, remote-config status, package statuses, custom capabilities,
flags)"; `clientstate.go` is not among the sources.  The flags are held as the `uint64`
the getter hands to the outbound message. -/
structure ClientSyncedState where
  agentDescription : Option AgentDescription
  health : Option ComponentHealth
  remoteConfigStatus : Option RemoteConfigStatus
  packageStatuses : Option PackageStatuses
  customCapabilities : Option CustomCapabilities
  flags : Nat
  deriving DecidableEq, Repr

/-- Modelled from the spec: `GetX()` "returns the current value" (getter of
`clientstate.go`). -/
def ClientSyncedState.AgentDescription (s : ClientSyncedState) :
    Option OpAMP.AgentDescription := s.agentDescription

/-- Modelled from the spec: `GetX()` "returns the current value" (getter of
`clientstate.go`). -/
def ClientSyncedState.Health (s : ClientSyncedState) : Option ComponentHealth := s.health

/-- Modelled from the spec: `GetX()` "returns the current value" (getter of
`clientstate.go`). -/
def ClientSyncedState.RemoteConfigStatus (s : ClientSyncedState) :
    Option OpAMP.RemoteConfigStatus := s.remoteConfigStatus

/-- Modelled from the spec: `GetX()` "returns the current value" (getter of
`clientstate.go`). -/
def ClientSyncedState.PackageStatuses (s : ClientSyncedState) :
    Option OpAMP.PackageStatuses := s.packageStatuses

/-- Modelled from the spec: `GetX()` "returns the current value" (getter of
`clientstate.go`). -/
def ClientSyncedState.CustomCapabilities (s : ClientSyncedState) :
    Option OpAMP.CustomCapabilities := s.customCapabilities

/-- Modelled from the spec: `GetX()` "returns the current value" (getter of
`clientstate.go`). -/
def ClientSyncedState.Flags (s : ClientSyncedState) : Nat := s.flags

/-- Modelled from the spec: `SetAgentDescription` of `clientstate.go`: "validates `value`
against the field's required-shape rule, then atomically replaces the stored field", and
"fails without partial mutation". -/
def ClientSyncedState.SetAgentDescription (D : Deps) (s : ClientSyncedState)
    (descr : Option OpAMP.AgentDescription) : Option Error × ClientSyncedState :=
  match D.shapeAgentDescription descr with
  | some err => (some err, s)
  | none => (none, { s with agentDescription := descr })

/-- Modelled from the spec: `SetHealth` of `clientstate.go`: "validates `value` against
the field's required-shape rule, then atomically replaces the stored field", and "fails
without partial mutation". -/
def ClientSyncedState.SetHealth (D : Deps) (s : ClientSyncedState)
    (health : Option ComponentHealth) : Option Error × ClientSyncedState :=
  match D.shapeHealth health with
  | some err => (some err, s)
  | none => (none, { s with health := health })

/-- Modelled from the spec: `SetRemoteConfigStatus` of `clientstate.go`: "validates
`value` against the field's required-shape rule, then atomically replaces the stored
field", and "fails without partial mutation". -/
def ClientSyncedState.SetRemoteConfigStatus (D : Deps) (s : ClientSyncedState)
    (status : Option OpAMP.RemoteConfigStatus) : Option Error × ClientSyncedState :=
  match D.shapeRemoteConfigStatus status with
  | some err => (some err, s)
  | none => (none, { s with remoteConfigStatus := status })

/-- Modelled from the spec: `SetPackageStatuses` of `clientstate.go`: "validates `value`
against the field's required-shape rule, then atomically replaces the stored field", and
"fails without partial mutation". -/
def ClientSyncedState.SetPackageStatuses (D : Deps) (s : ClientSyncedState)
    (status : Option OpAMP.PackageStatuses) : Option Error × ClientSyncedState :=
  match D.shapePackageStatuses status with
  | some err => (some err, s)
  | none => (none, { s with packageStatuses := status })

/-- Modelled from the spec: `SetCustomCapabilities` of `clientstate.go`: "validates
`value` against the field's required-shape rule, then atomically replaces the stored
field", and "fails without partial mutation". -/
def ClientSyncedState.SetCustomCapabilities (D : Deps) (s : ClientSyncedState)
    (capabilities : Option OpAMP.CustomCapabilities) : Option Error × ClientSyncedState :=
  match D.shapeCustomCapabilities capabilities with
  | some err => (some err, s)
  | none => (none, { s with customCapabilities := capabilities })

/-- Modelled from the spec: `SetFlags` of `clientstate.go`, which has no error result:
it replaces the stored flags, a "bitmask of behavioral flags reported to the server". -/
def ClientSyncedState.SetFlags (s : ClientSyncedState) (flags : Int) : ClientSyncedState :=
  { s with flags := uint64 flags }

/-- Modelled from the spec: `HasCustomCapability` of `clientstate.go`: whether the
"capability identifier is ... present in the current custom-capabilities set". -/
def ClientSyncedState.HasCustomCapability (s : ClientSyncedState) (capability : String) :
    Bool :=
  match s.customCapabilities with
  | none => false
  | some cc => cc.Capabilities.contains capability

/-! ## The pending message and the sender -/

/-- Modelled from the spec: the handle `Update` returns, "a per-update completion signal";
what it signals is concurrent behaviour and is not part of the embedding. -/
inductive SendingChannel where
  | mk
  deriving DecidableEq, Repr

/-- Modelled from the spec: PendingMessageBuffer, "a single optional next outbound
message slot" (`nextmessage.go` is not among the sources): the accumulated message and
the mark that it is pending. -/
structure NextMessage where
  nextMessage : AgentToServer
  messagePending : Bool
  deriving DecidableEq, Repr

/-- Modelled from the spec: `Update(mutator)` "applies `mutator` to the shared pending
message in-place", "returns a handle" and marks the message as pending. -/
def NextMessage.Update (s : NextMessage) (modifier : AgentToServer → AgentToServer) :
    SendingChannel × NextMessage :=
  (SendingChannel.mk, { nextMessage := modifier s.nextMessage, messagePending := true })

/-- Modelled from the spec: `PopPending()` "detaches and returns the current accumulated
message (or empty-equivalent if nothing is pending) and resets the slot". -/
def NextMessage.PopPending (s : NextMessage) : Option AgentToServer × NextMessage :=
  ((if s.messagePending then some s.nextMessage else none),
    { nextMessage := AgentToServer.empty, messagePending := false })

/-- Modelled from the spec: SenderCore, "composed from PendingMessageBuffer plus a
has-pending signal and an identity (instance id) setter" (`sender.go` is not among the
sources).  `hasPendingMessage` is the single-slot signal; `scheduleSendCalls` counts the
calls of `ScheduleSend`, which the signal alone coalesces. -/
structure SenderCommon where
  nextMessage : NextMessage
  hasPendingMessage : Bool
  scheduleSendCalls : Nat
  instanceUid : String
  deriving DecidableEq, Repr

/-- The call `sender.NextMessage().Update(modifier)`. -/
def SenderCommon.UpdateNextMessage (s : SenderCommon)
    (modifier : AgentToServer → AgentToServer) : SendingChannel × SenderCommon :=
  ((s.nextMessage.Update modifier).1, { s with nextMessage := (s.nextMessage.Update modifier).2 })

/-- Modelled from the spec: `ScheduleSend`, a signal that "is edge-triggered
(non-blocking, coalesces multiple signals into one wake)". -/
def SenderCommon.ScheduleSend (s : SenderCommon) : SenderCommon :=
  { s with hasPendingMessage := true, scheduleSendCalls := s.scheduleSendCalls + 1 }

/-- Modelled from the spec: `SetInstanceUid`, the "identity (instance id) setter" of the
sender; a rejected identifier leaves the sender as it is. -/
def SenderCommon.SetInstanceUid (D : Deps) (s : SenderCommon) (instanceUid : String) :
    Option Error × SenderCommon :=
  match D.shapeInstanceUid instanceUid with
  | some err => (some err, s)
  | none => (none, { s with instanceUid := instanceUid })

/-! ## Collaborators of the client -/

/-- A `context.Context`, named by a number. -/
abbrev Context := Nat

/-- Modelled from the spec: the effective-config callback,
`GetEffectiveConfig(context) -> bytes | error` (interface `types.Callbacks`), with Go's
pair of results. -/
structure Callbacks where
  GetEffectiveConfig : Context → Option EffectiveConfig × Option Error

/-- Modelled from the spec: `types.CallbacksStruct{}`, the "no-op implementation"
installed when the settings give no callbacks. -/
def CallbacksStruct : Callbacks := { GetEffectiveConfig := fun _ => (none, none) }

/-- Modelled from the spec: the package-state provider,
`LastReportedStatuses() -> PackageStatuses | error` (interface
`types.PackagesStateProvider`), with Go's pair of results. -/
structure PackagesStateProvider where
  LastReportedStatuses : Option PackageStatuses × Option Error

/-- Modelled from the spec: the fields of `types.StartSettings` that `PrepareStart`
reads. -/
structure StartSettings where
  InstanceUid : String
  Capabilities : Int
  RemoteConfigStatus : Option RemoteConfigStatus
  PackagesStateProvider : Option PackagesStateProvider
  Callbacks : Option Callbacks

/-! ## `ClientCommon` -/

/-- The struct `ClientCommon`, without the logger, the mutexes and the `stoppedSignal`
channel.  `runCancel` names the context its cancellation func cancels. -/
structure ClientCommon where
  Callbacks : Option Callbacks
  Capabilities : Int
  ClientSyncedState : ClientSyncedState
  PackagesStateProvider : Option PackagesStateProvider
  sender : SenderCommon
  isStarted : Bool
  runCancel : Option Context
  isStoppingFlag : Bool

/-- The contexts and goroutines a client has created: how many contexts
`context.WithCancel` has handed out, which of them were cancelled, and the runners
launched with the context each was given. -/
structure Runtime where
  contexts : Nat
  cancelled : List Context
  runners : List (Nat × Context)
  deriving DecidableEq, Repr

/-- The function `NewClientCommon`: every field but the sender has its zero value. -/
def NewClientCommon (sender : SenderCommon) : ClientCommon :=
  { Callbacks := none, Capabilities := 0,
    ClientSyncedState :=
      { agentDescription := none, health := none, remoteConfigStatus := none,
        packageStatuses := none, customCapabilities := none, flags := 0 },
    PackagesStateProvider := none, sender := sender, isStarted := false, runCancel := none,
    isStoppingFlag := false }

/-- The step of `PrepareStart` that fills in the settings' remote-config status:
"RemoteConfigStatus is not provided. Start with empty." -/
def StartSettings.fillRemoteConfigStatus (settings : StartSettings) : StartSettings :=
  { settings with
    RemoteConfigStatus :=
      match settings.RemoteConfigStatus with
      | none => some { LastRemoteConfigHash := none, Status := .UNSET, ErrorMessage := "" }
      | some status => some status }

/-- The method `ClientCommon.PrepareStart`. -/
def ClientCommon.PrepareStart (D : Deps) (c : ClientCommon) (settings : StartSettings) :
    Outcome × ClientCommon :=
  if c.isStarted then (.err .errAlreadyStarted, c) else
  let c := { c with Capabilities := settings.Capabilities }
  let c := { c with Capabilities := Int.lor c.Capabilities D.ReportsStatus }
  if c.ClientSyncedState.AgentDescription = none then
    (.err .ErrAgentDescriptionMissing, c) else
  if Int.land c.Capabilities D.ReportsHealth ≠ 0 ∧ c.ClientSyncedState.Health = none then
    (.err .ErrHealthMissing, c) else
  let settings := settings.fillRemoteConfigStatus
  match c.ClientSyncedState.SetRemoteConfigStatus D settings.RemoteConfigStatus with
  | (some err, st) => (.err err, { c with ClientSyncedState := st })
  | (none, st) =>
  let c := { c with ClientSyncedState := st }
  let c := { c with PackagesStateProvider := settings.PackagesStateProvider }
  let loaded : Except Error (Option OpAMP.PackageStatuses) :=
    match settings.PackagesStateProvider with
    | some provider =>
      if Int.land c.Capabilities D.AcceptsPackages = 0 ∨
          Int.land c.Capabilities D.ReportsPackageStatuses = 0 then
        .error .ErrAcceptsPackagesNotSet
      else
        match provider.LastReportedStatuses with
        | (_, some err) => .error err
        | (statuses, none) => .ok statuses
    | none =>
      if Int.land c.Capabilities D.AcceptsPackages ≠ 0 ∨
          Int.land c.Capabilities D.ReportsPackageStatuses ≠ 0 then
        .error .ErrPackagesStateProviderNotSet
      else .ok none
  match loaded with
  | .error err => (.err err, c)
  | .ok loadedStatuses =>
  let packageStatuses : Option OpAMP.PackageStatuses :=
    match loadedStatuses with
    | none => some { Packages := [], ServerProvidedAllPackagesHash := none, ErrorMessage := "" }
    | some statuses => some statuses
  match c.ClientSyncedState.SetPackageStatuses D packageStatuses with
  | (some err, st) => (.err err, { c with ClientSyncedState := st })
  | (none, st) =>
  let c := { c with ClientSyncedState := st }
  let c := { c with Callbacks := settings.Callbacks }
  let c := { c with
    Callbacks :=
      match c.Callbacks with
      | none => some CallbacksStruct
      | some callbacks => some callbacks }
  match c.sender.SetInstanceUid D settings.InstanceUid with
  | (some err, sd) => (.err err, { c with sender := sd })
  | (none, sd) => (.nil, { c with sender := sd })

/-- The method `ClientCommon.Stop`.  `waited` is how the final `select` ends: `some e`
when the caller's context is done first and `ctx.Err()` is `e`, `none` when the stopped
signal arrives. -/
def ClientCommon.Stop (c : ClientCommon) (rt : Runtime) (waited : Option Error) :
    Outcome × ClientCommon × Runtime :=
  if !c.isStarted then (.err .errCannotStopNotStarted, c, rt) else
  let cancelFunc := c.runCancel
  let c := { c with isStoppingFlag := true }
  match cancelFunc with
  | none => (.panic, c, rt)
  | some ctx =>
    let rt := { rt with cancelled := ctx :: rt.cancelled }
    match waited with
    | some err => (.err err, c, rt)
    | none => (.nil, c, rt)

/-- The method `ClientCommon.IsStopping`. -/
def ClientCommon.IsStopping (c : ClientCommon) : Bool := c.isStoppingFlag

/-- The method `ClientCommon.StartConnectAndRun`; the runner is named by a number and
launching it records it with its context. -/
def ClientCommon.StartConnectAndRun (c : ClientCommon) (rt : Runtime) (runner : Nat) :
    ClientCommon × Runtime :=
  let runCtx : Context := rt.contexts
  let rt := { rt with contexts := rt.contexts + 1 }
  if c.isStoppingFlag then
    (c, { rt with cancelled := runCtx :: rt.cancelled })
  else
    let c := { c with runCancel := some runCtx }
    let c := { c with isStarted := true }
    (c, { rt with runners := (runner, runCtx) :: rt.runners })

/-- The method `ClientCommon.PrepareFirstMessage`. -/
def ClientCommon.PrepareFirstMessage (c : ClientCommon) (ctx : Context) :
    Outcome × ClientCommon :=
  match c.Callbacks with
  | none => (.panic, c)
  | some callbacks =>
    match callbacks.GetEffectiveConfig ctx with
    | (_, some err) => (.err err, c)
    | (cfg, none) =>
      (.nil, { c with sender := (c.sender.UpdateNextMessage (fun msg =>
        { msg with
          AgentDescription := c.ClientSyncedState.AgentDescription
          EffectiveConfig := cfg
          RemoteConfigStatus := c.ClientSyncedState.RemoteConfigStatus
          PackageStatuses := c.ClientSyncedState.PackageStatuses
          Capabilities := uint64 c.Capabilities
          CustomCapabilities := c.ClientSyncedState.CustomCapabilities
          Flags := c.ClientSyncedState.Flags })).2 })

/-- The method `ClientCommon.SetAgentDescription`. -/
def ClientCommon.SetAgentDescription (D : Deps) (c : ClientCommon)
    (descr : Option OpAMP.AgentDescription) : Outcome × ClientCommon :=
  match c.ClientSyncedState.SetAgentDescription D descr with
  | (some err, st) => (.err err, { c with ClientSyncedState := st })
  | (none, st) =>
    let c := { c with ClientSyncedState := st }
    let c := { c with sender := (c.sender.UpdateNextMessage (fun msg =>
      { msg with AgentDescription := c.ClientSyncedState.AgentDescription })).2 }
    (.nil, { c with sender := c.sender.ScheduleSend })

/-- The method `ClientCommon.RequestConnectionSettings`. -/
def ClientCommon.RequestConnectionSettings (c : ClientCommon)
    (request : Option ConnectionSettingsRequest) : Outcome × ClientCommon :=
  let c := { c with sender := (c.sender.UpdateNextMessage (fun msg =>
    { msg with ConnectionSettingsRequest := request })).2 }
  (.nil, { c with sender := c.sender.ScheduleSend })

/-- The method `ClientCommon.SetHealth`. -/
def ClientCommon.SetHealth (D : Deps) (c : ClientCommon) (health : Option ComponentHealth) :
    Outcome × ClientCommon :=
  match c.ClientSyncedState.SetHealth D health with
  | (some err, st) => (.err err, { c with ClientSyncedState := st })
  | (none, st) =>
    let c := { c with ClientSyncedState := st }
    let c := { c with sender := (c.sender.UpdateNextMessage (fun msg =>
      { msg with Health := c.ClientSyncedState.Health })).2 }
    (.nil, { c with sender := c.sender.ScheduleSend })

/-- The method `ClientCommon.UpdateEffectiveConfig`. -/
def ClientCommon.UpdateEffectiveConfig (D : Deps) (c : ClientCommon) (ctx : Context) :
    Outcome × ClientCommon :=
  if Int.land c.Capabilities D.ReportsEffectiveConfig = 0 then
    (.err .ErrReportsEffectiveConfigNotSet, c) else
  match c.Callbacks with
  | none => (.panic, c)
  | some callbacks =>
    match callbacks.GetEffectiveConfig ctx with
    | (_, some err) => (.err (.wrapped "GetEffectiveConfig failed" err), c)
    | (cfg, none) =>
      let c := { c with sender := (c.sender.UpdateNextMessage (fun msg =>
        { msg with EffectiveConfig := cfg })).2 }
      (.nil, { c with sender := c.sender.ScheduleSend })

/-- The method `ClientCommon.SetRemoteConfigStatus`. -/
def ClientCommon.SetRemoteConfigStatus (D : Deps) (c : ClientCommon)
    (status : Option OpAMP.RemoteConfigStatus) : Outcome × ClientCommon :=
  if Int.land c.Capabilities D.ReportsRemoteConfig = 0 then
    (.err .ErrReportsRemoteConfigNotSet, c) else
  match status with
  | none => (.panic, c)
  | some given =>
    if given.LastRemoteConfigHash = none then (.err .errLastRemoteConfigHashNil, c) else
    let statusChanged :=
      !protoEqual RemoteConfigStatus.equal c.ClientSyncedState.RemoteConfigStatus status
    match c.ClientSyncedState.SetRemoteConfigStatus D status with
    | (some err, st) => (.err err, { c with ClientSyncedState := st })
    | (none, st) =>
      let c := { c with ClientSyncedState := st }
      if statusChanged then
        let c := { c with sender := (c.sender.UpdateNextMessage (fun msg =>
          { msg with RemoteConfigStatus := c.ClientSyncedState.RemoteConfigStatus })).2 }
        (.nil, { c with sender := c.sender.ScheduleSend })
      else (.nil, c)

/-- The method `ClientCommon.SetPackageStatuses`. -/
def ClientCommon.SetPackageStatuses (D : Deps) (c : ClientCommon)
    (statuses : Option OpAMP.PackageStatuses) : Outcome × ClientCommon :=
  if Int.land c.Capabilities D.ReportsPackageStatuses = 0 then
    (.err .errReportsPackageStatusesNotSet, c) else
  match statuses with
  | none => (.panic, c)
  | some given =>
    if given.ServerProvidedAllPackagesHash = none then
      (.err .errServerProvidedAllPackagesHashNil, c) else
    let statusChanged :=
      !protoEqual PackageStatuses.equal c.ClientSyncedState.PackageStatuses statuses
    match c.ClientSyncedState.SetPackageStatuses D statuses with
    | (some err, st) => (.err err, { c with ClientSyncedState := st })
    | (none, st) =>
      let c := { c with ClientSyncedState := st }
      if statusChanged then
        let c := { c with sender := (c.sender.UpdateNextMessage (fun msg =>
          { msg with PackageStatuses := c.ClientSyncedState.PackageStatuses })).2 }
        (.nil, { c with sender := c.sender.ScheduleSend })
      else (.nil, c)

/-- The method `ClientCommon.SetCustomCapabilities`. -/
def ClientCommon.SetCustomCapabilities (D : Deps) (c : ClientCommon)
    (customCapabilities : Option OpAMP.CustomCapabilities) : Outcome × ClientCommon :=
  match c.ClientSyncedState.SetCustomCapabilities D customCapabilities with
  | (some err, st) => (.err err, { c with ClientSyncedState := st })
  | (none, st) =>
    let c := { c with ClientSyncedState := st }
    let c := { c with sender := (c.sender.UpdateNextMessage (fun msg =>
      { msg with CustomCapabilities := c.ClientSyncedState.CustomCapabilities })).2 }
    (.nil, { c with sender := c.sender.ScheduleSend })

/-- The method `ClientCommon.SetFlags`, which has no result. -/
def ClientCommon.SetFlags (c : ClientCommon) (flags : Int) : ClientCommon :=
  let c := { c with ClientSyncedState := c.ClientSyncedState.SetFlags flags }
  let c := { c with sender := (c.sender.UpdateNextMessage (fun msg =>
    { msg with Flags := uint64 flags })).2 }
  { c with sender := c.sender.ScheduleSend }

/-- The body of the closure `SendCustomMessage` hands to `Update`: the value it leaves in
the captured `hasCustomMessage`, and the message after it. -/
def customMessageModifier (message : CustomMessage) (msg : AgentToServer) :
    Bool × AgentToServer :=
  if msg.CustomMessage ≠ none then (true, msg)
  else (false, { msg with CustomMessage := some message })

/-- The method `ClientCommon.SendCustomMessage`, with its two results. -/
def ClientCommon.SendCustomMessage (c : ClientCommon) (message : Option CustomMessage) :
    (Option SendingChannel × Outcome) × ClientCommon :=
  match message with
  | none => ((none, .err .ErrCustomMessageMissing), c)
  | some given =>
    if !c.ClientSyncedState.HasCustomCapability given.Capability then
      ((none, .err .ErrCustomCapabilityNotSupported), c) else
    let hasCustomMessage :=
      (customMessageModifier given c.sender.nextMessage.nextMessage).1
    let updated := c.sender.UpdateNextMessage (fun msg => (customMessageModifier given msg).2)
    let sendingChan := updated.1
    let c := { c with sender := updated.2 }
    if hasCustomMessage then ((some sendingChan, .err .ErrCustomMessagePending), c) else
    ((some sendingChan, .nil), { c with sender := c.sender.ScheduleSend })

/-! ## A concrete instance of the parameter, and sample values -/

/-- Modelled from the spec: an instance of `Deps` for concrete evaluations.  The bit masks
are those of the OpAMP protocol definition.  The shape rules are the ones of the data
model: the agent description "must be non-null and carry at least one attribute", a
health value must be present; the spec names no rule of the store for the other fields
(the hash rules depend on a capability and are checked by `ClientCommon`) nor for the
instance identifier, and these are accepted. -/
def opampDeps : Deps :=
  { ReportsStatus := 0x1
    ReportsEffectiveConfig := 0x4
    AcceptsPackages := 0x8
    ReportsPackageStatuses := 0x10
    ReportsHealth := 0x800
    ReportsRemoteConfig := 0x1000
    shapeAgentDescription := fun descr =>
      match descr with
      | none => some .ErrAgentDescriptionMissing
      | some d =>
        if d.IdentifyingAttributes = [] ∧ d.NonIdentifyingAttributes = [] then
          some .ErrAgentDescriptionNoAttributes
        else none
    shapeHealth := fun health =>
      match health with
      | none => some .ErrHealthMissing
      | some _ => none
    shapeRemoteConfigStatus := fun _ => none
    shapePackageStatuses := fun _ => none
    shapeCustomCapabilities := fun _ => none
    shapeInstanceUid := fun _ => none }

/-- A sender that has nothing pending. -/
def idleSender : SenderCommon :=
  { nextMessage := { nextMessage := AgentToServer.empty, messagePending := false },
    hasPendingMessage := false, scheduleSendCalls := 0, instanceUid := "" }

/-- An agent description with one identifying attribute. -/
def sampleDescription : AgentDescription :=
  { IdentifyingAttributes := [{ Key := "service.name", Value := "agent" }],
    NonIdentifyingAttributes := [] }

/-- A new client whose agent description has been set and nothing else. -/
def describedClient : ClientCommon :=
  (ClientCommon.SetAgentDescription opampDeps (NewClientCommon idleSender)
    (some sampleDescription)).2

/-- Start settings with the given capabilities and provider and nothing else. -/
def settingsWith (capabilities : Int) (provider : Option PackagesStateProvider) :
    StartSettings :=
  { InstanceUid := "uid-1", Capabilities := capabilities, RemoteConfigStatus := none,
    PackagesStateProvider := provider, Callbacks := none }

/-- A package-state provider that has nothing saved. -/
def emptyProvider : PackagesStateProvider := { LastReportedStatuses := (none, none) }

/-! ## Vocabulary of the statements -/

/-- Whether an error is one of the two errors of the package-capability pairing check. -/
def Error.isPairingError : Error → Bool
  | .ErrAcceptsPackagesNotSet => true
  | .ErrPackagesStateProviderNotSet => true
  | _ => false

/-- The steps of `PrepareStart` that follow the pairing check (the provider's
`LastReportedStatuses`, the store's `SetPackageStatuses`, the sender's `SetInstanceUid`)
fail, when they fail, with an error other than the two errors of the pairing check. -/
def laterStepsHaveOwnErrors (D : Deps) (settings : StartSettings) : Prop :=
  (∀ provider statuses e, settings.PackagesStateProvider = some provider →
      provider.LastReportedStatuses = (statuses, some e) → e.isPairingError = false) ∧
  (∀ statuses e, D.shapePackageStatuses statuses = some e → e.isPairingError = false) ∧
  (∀ e, D.shapeInstanceUid settings.InstanceUid = some e → e.isPairingError = false)

/-- The pending message of a client: the message its sender accumulates. -/
def ClientCommon.pendingMessage (c : ClientCommon) : AgentToServer :=
  c.sender.nextMessage.nextMessage

/-- A client prepared with the capabilities `ReportsStatus`, `AcceptsPackages`,
`ReportsPackageStatuses` and `ReportsRemoteConfig` and an empty provider. -/
def reportingClient : ClientCommon :=
  (describedClient.PrepareStart opampDeps (settingsWith 0x1018 (some emptyProvider))).2

/-- A remote-config status with a hash. -/
def appliedStatus : RemoteConfigStatus :=
  { LastRemoteConfigHash := some [1, 2], Status := .APPLIED, ErrorMessage := "" }

/-- Package statuses with a hash and no package. -/
def hashedStatuses : PackageStatuses :=
  { Packages := [], ServerProvidedAllPackagesHash := some [7], ErrorMessage := "" }

/-- A client that advertises one custom capability. -/
def customClient : ClientCommon :=
  (describedClient.SetCustomCapabilities opampDeps
    (some { Capabilities := ["example.echo"] })).2

/-- A custom message of the advertised capability. -/
def firstMessage : CustomMessage :=
  { Capability := "example.echo", MessageType := "ping", Data := [1] }

/-- Another custom message of the advertised capability. -/
def secondMessage : CustomMessage :=
  { Capability := "example.echo", MessageType := "ping", Data := [2] }

/-- The client after `firstMessage` was queued and before any send. -/
def queuedClient : ClientCommon := (customClient.SendCustomMessage (some firstMessage)).2

/-- A health value. -/
def healthy : ComponentHealth := { Healthy := true, StartTimeUnixNano := 5, LastError := "" }

/-- A client on which `SetHealth` was called before the start, prepared with
`ReportsStatus` alone, and whose sender has since popped the pending message (as the first
send of a connection does). -/
def poppedClient : ClientCommon :=
  let c := (describedClient.SetHealth opampDeps (some healthy)).2
  let c := (c.PrepareStart opampDeps (settingsWith 0x1 none)).2
  { c with sender := { c.sender with nextMessage := c.sender.nextMessage.PopPending.2 } }

/-- The condition under which `PrepareStart` fails at one of its first four checks: the
client is already started, the agent description is missing, health is missing with
`ReportsHealth` enabled, or the store rejects the remote-config status. -/
def failsEarly (D : Deps) (c : ClientCommon) (settings : StartSettings) : Prop :=
  c.isStarted = true ∨
  c.ClientSyncedState.AgentDescription = none ∨
  (Int.land (Int.lor settings.Capabilities D.ReportsStatus) D.ReportsHealth ≠ 0 ∧
    c.ClientSyncedState.Health = none) ∨
  (c.ClientSyncedState.SetRemoteConfigStatus D
    settings.fillRemoteConfigStatus.RemoteConfigStatus).1 ≠ none

/-- One call of the reporting API of `ClientCommon`. -/
inductive ReportingCall where
  | SetAgentDescription (descr : Option AgentDescription)
  | SetHealth (health : Option ComponentHealth)
  | SetRemoteConfigStatus (status : Option RemoteConfigStatus)
  | SetPackageStatuses (statuses : Option PackageStatuses)
  | SetCustomCapabilities (customCapabilities : Option CustomCapabilities)
  | SetFlags (flags : Int)
  | UpdateEffectiveConfig (ctx : Context)
  | RequestConnectionSettings (request : Option ConnectionSettingsRequest)

/-- The client method a reporting call stands for. -/
def ClientCommon.call (D : Deps) (c : ClientCommon) : ReportingCall → Outcome × ClientCommon
  | .SetAgentDescription descr => c.SetAgentDescription D descr
  | .SetHealth health => c.SetHealth D health
  | .SetRemoteConfigStatus status => c.SetRemoteConfigStatus D status
  | .SetPackageStatuses statuses => c.SetPackageStatuses D statuses
  | .SetCustomCapabilities customCapabilities => c.SetCustomCapabilities D customCapabilities
  | .SetFlags flags => (.nil, c.SetFlags flags)
  | .UpdateEffectiveConfig ctx => c.UpdateEffectiveConfig D ctx
  | .RequestConnectionSettings request => c.RequestConnectionSettings request

/-- The client after a sequence of reporting calls, with no pop in between. -/
def ClientCommon.calls (D : Deps) (c : ClientCommon) : List ReportingCall → ClientCommon
  | [] => c
  | call :: rest => ClientCommon.calls D (c.call D call).2 rest

/-- A reporting call is successful on a client: it returns nil and, for the two
change-gated setters, the value is not `proto.Equal` to the stored one. -/
def ClientCommon.succeeds (D : Deps) (c : ClientCommon) (call : ReportingCall) : Prop :=
  (c.call D call).1 = .nil ∧
  match call with
  | .SetRemoteConfigStatus status =>
    protoEqual RemoteConfigStatus.equal c.ClientSyncedState.RemoteConfigStatus status = false
  | .SetPackageStatuses statuses =>
    protoEqual PackageStatuses.equal c.ClientSyncedState.PackageStatuses statuses = false
  | _ => True

/-- Every call of a sequence is successful on the client it is issued on. -/
def ClientCommon.allSucceed (D : Deps) (c : ClientCommon) : List ReportingCall → Prop
  | [] => True
  | call :: rest => c.succeeds D call ∧ ClientCommon.allSucceed D (c.call D call).2 rest

/-- The fields of the outbound message. -/
inductive Field where
  | InstanceUid
  | SequenceNum
  | AgentDescription
  | Capabilities
  | Health
  | EffectiveConfig
  | RemoteConfigStatus
  | PackageStatuses
  | Flags
  | ConnectionSettingsRequest
  | CustomCapabilities
  | CustomMessage
  deriving DecidableEq, Repr

/-- The value of a field of the outbound message. -/
inductive FieldValue where
  | text (value : String)
  | number (value : Nat)
  | description (value : Option AgentDescription)
  | health (value : Option ComponentHealth)
  | config (value : Option EffectiveConfig)
  | status (value : Option RemoteConfigStatus)
  | statuses (value : Option PackageStatuses)
  | request (value : Option ConnectionSettingsRequest)
  | customCapabilities (value : Option CustomCapabilities)
  | customMessage (value : Option CustomMessage)
  deriving DecidableEq, Repr

/-- The value a message holds in a field. -/
def AgentToServer.get (msg : AgentToServer) : Field → FieldValue
  | .InstanceUid => .text msg.InstanceUid
  | .SequenceNum => .number msg.SequenceNum
  | .AgentDescription => .description msg.AgentDescription
  | .Capabilities => .number msg.Capabilities
  | .Health => .health msg.Health
  | .EffectiveConfig => .config msg.EffectiveConfig
  | .RemoteConfigStatus => .status msg.RemoteConfigStatus
  | .PackageStatuses => .statuses msg.PackageStatuses
  | .Flags => .number msg.Flags
  | .ConnectionSettingsRequest => .request msg.ConnectionSettingsRequest
  | .CustomCapabilities => .customCapabilities msg.CustomCapabilities
  | .CustomMessage => .customMessage msg.CustomMessage

/-- The field of the outbound message a reporting call is about. -/
def ReportingCall.field : ReportingCall → Field
  | .SetAgentDescription _ => .AgentDescription
  | .SetHealth _ => .Health
  | .SetRemoteConfigStatus _ => .RemoteConfigStatus
  | .SetPackageStatuses _ => .PackageStatuses
  | .SetCustomCapabilities _ => .CustomCapabilities
  | .SetFlags _ => .Flags
  | .UpdateEffectiveConfig _ => .EffectiveConfig
  | .RequestConnectionSettings _ => .ConnectionSettingsRequest

/-- The value a reporting call reports: its argument, and for `UpdateEffectiveConfig` the
configuration the installed callback returns. -/
def ReportingCall.value (callbacks : Option Callbacks) : ReportingCall → FieldValue
  | .SetAgentDescription descr => .description descr
  | .SetHealth health => .health health
  | .SetRemoteConfigStatus status => .status status
  | .SetPackageStatuses statuses => .statuses statuses
  | .SetCustomCapabilities customCapabilities => .customCapabilities customCapabilities
  | .SetFlags flags => .number (uint64 flags)
  | .UpdateEffectiveConfig ctx =>
    match callbacks with
    | some installed => .config (installed.GetEffectiveConfig ctx).1
    | none => .config none
  | .RequestConnectionSettings request => .request request

/-- The value reported by the last call of a sequence that is about the field, if there
is one. -/
def lastReported (callbacks : Option Callbacks) (f : Field) :
    List ReportingCall → Option FieldValue
  | [] => none
  | call :: rest =>
    match lastReported callbacks f rest with
    | some v => some v
    | none => if call.field = f then some (call.value callbacks) else none
/-- Four reporting calls, two of them about the flags. -/
def sampleCalls : List ReportingCall :=
  [.SetHealth (some healthy), .SetFlags 1, .SetRemoteConfigStatus (some appliedStatus),
    .SetFlags 2]

/-- One operation of `ClientCommon`, with what the environment contributes to it. -/
inductive Operation where
  | PrepareStart (settings : StartSettings)
  | StartConnectAndRun (runner : Nat)
  | Stop (waited : Option Error)
  | PrepareFirstMessage (ctx : Context)
  | Report (call : ReportingCall)
  | SendCustomMessage (message : Option CustomMessage)

/-- The client and its runtime after one operation. -/
def ClientCommon.apply (D : Deps) (state : ClientCommon × Runtime) :
    Operation → ClientCommon × Runtime
  | .PrepareStart settings => ((state.1.PrepareStart D settings).2, state.2)
  | .StartConnectAndRun runner => state.1.StartConnectAndRun state.2 runner
  | .Stop waited => (state.1.Stop state.2 waited).2
  | .PrepareFirstMessage ctx => ((state.1.PrepareFirstMessage ctx).2, state.2)
  | .Report call => ((state.1.call D call).2, state.2)
  | .SendCustomMessage message => ((state.1.SendCustomMessage message).2, state.2)

/-- The client and its runtime after a sequence of operations. -/
def ClientCommon.applyAll (D : Deps) (state : ClientCommon × Runtime) (ops : List Operation) :
    ClientCommon × Runtime :=
  ops.foldl (ClientCommon.apply D) state

/-- A runtime in which nothing has been created yet. -/
def freshRuntime : Runtime := { contexts := 0, cancelled := [], runners := [] }

/-- Whether a start fails at one of its first four checks can be computed. -/
instance failsEarly.decidable (D : Deps) (c : ClientCommon) (settings : StartSettings) :
    Decidable (failsEarly D c settings) := by
  delta failsEarly; infer_instance

/-- Whether a reporting call is successful can be computed. -/
instance ClientCommon.succeeds.decidable (D : Deps) (c : ClientCommon) (call : ReportingCall) :
    Decidable (c.succeeds D call) := by
  delta ClientCommon.succeeds
  cases call <;> exact instDecidableAnd

/-- Whether every call of a sequence is successful can be computed. -/
instance ClientCommon.allSucceed.decidable (D : Deps) :
    (c : ClientCommon) → (calls : List ReportingCall) → Decidable (c.allSucceed D calls)
  | _, [] => isTrue trivial
  | c, call :: rest =>
    have := ClientCommon.allSucceed.decidable D (c.call D call).2 rest
    instDecidableAnd

/-- A client on which a stop was requested: prepared, started and stopped. -/
def stoppedClient : ClientCommon × Runtime :=
  ClientCommon.applyAll opampDeps (describedClient, freshRuntime)
    [.PrepareStart (settingsWith 0x1 none), .StartConnectAndRun 0, .Stop none]

/-- The client after `appliedStatus` was reported once. -/
def appliedClient : ClientCommon :=
  (reportingClient.SetRemoteConfigStatus opampDeps (some appliedStatus)).2

/-- A remote-config status with another hash. -/
def failedStatus : RemoteConfigStatus :=
  { LastRemoteConfigHash := some [9], Status := .FAILED, ErrorMessage := "bad" }

/-- Whether an operation is a call of `StartConnectAndRun`. -/
def Operation.isStartConnectAndRun : Operation → Bool
  | .StartConnectAndRun _ => true
  | _ => false

/-- An agent description without any attribute. -/
def bareDescription : AgentDescription :=
  { IdentifyingAttributes := [], NonIdentifyingAttributes := [] }

/-- The client with another agent description in its synced state. -/
def ClientCommon.holding (c : ClientCommon) (descr : Option AgentDescription) : ClientCommon :=
  { c with ClientSyncedState := { c.ClientSyncedState with agentDescription := descr } }

/-! ## The WebSocket sender (`wssender.go`) -/

/-- Field-wise `proto.Equal` on two valid `AgentToServer` messages. -/
def AgentToServer.equal (a b : AgentToServer) : Bool :=
  a.InstanceUid == b.InstanceUid
    && a.SequenceNum == b.SequenceNum
    && protoEqual (fun x y => decide (x = y)) a.AgentDescription b.AgentDescription
    && a.Capabilities == b.Capabilities
    && protoEqual (fun x y => decide (x = y)) a.Health b.Health
    && protoEqual (fun x y => decide (x = y)) a.EffectiveConfig b.EffectiveConfig
    && protoEqual RemoteConfigStatus.equal a.RemoteConfigStatus b.RemoteConfigStatus
    && protoEqual PackageStatuses.equal a.PackageStatuses b.PackageStatuses
    && a.Flags == b.Flags
    && protoEqual (fun x y => decide (x = y)) a.ConnectionSettingsRequest
        b.ConnectionSettingsRequest
    && protoEqual (fun x y => decide (x = y)) a.CustomCapabilities b.CustomCapabilities
    && protoEqual (fun x y => decide (x = y)) a.CustomMessage b.CustomMessage

/-- The connection (`*websocket.Conn`) as the sender sees it: the messages handed to it
for writing, newest first, and the number of close frames written.  Whether a write
succeeds is decided by the environment. -/
structure Conn where
  written : List AgentToServer
  closeFrames : Nat
  deriving DecidableEq, Repr

/-- The struct `WSSender`, with its embedded `SenderCommon`.  `stopped` is the channel of
that name: `none` not made, `some false` open, `some true` closed.  `logged` holds the
errors handed to the logger, newest first, and `loops` the contexts of the `run`
goroutines launched. -/
structure WSSender where
  SenderCommon : SenderCommon
  conn : Option Conn
  logged : List Error
  stopped : Option Bool
  err : Option Error
  loops : List Context
  deriving DecidableEq, Repr

/-- The method `WSSender.sendMessage`.  `written` is the result of
`internal.WriteWSMessage`; writing through a nil connection panics. -/
def WSSender.sendMessage (s : WSSender) (msg : AgentToServer) (written : Option Error) :
    Outcome × WSSender :=
  match s.conn with
  | none => (.panic, s)
  | some conn =>
    let s := { s with conn := some { conn with written := msg :: conn.written } }
    match written with
    | some err => (.err err, { s with logged := err :: s.logged })
    | none => (.nil, s)

/-- The method `WSSender.sendNextMessage`.  `written` is the result of the write, if one
is made. -/
def WSSender.sendNextMessage (s : WSSender) (written : Option Error) : Outcome × WSSender :=
  let popped := s.SenderCommon.nextMessage.PopPending
  let msgToSend := popped.1
  let s := { s with SenderCommon := { s.SenderCommon with nextMessage := popped.2 } }
  match msgToSend with
  | some msg =>
    if !protoEqual AgentToServer.equal (some msg) (some AgentToServer.empty) then
      s.sendMessage msg written
    else (.nil, s)
  | none => (.nil, s)

/-- The method `WSSender.sendCloseMessage`.  `closed` is the result of `WriteControl`;
writing through a nil connection panics. -/
def WSSender.sendCloseMessage (s : WSSender) (closed : Option Error) : Outcome × WSSender :=
  match s.conn with
  | none => (.panic, s)
  | some conn =>
    let s := { s with conn := some { conn with closeFrames := conn.closeFrames + 1 } }
    match closed with
    | some err => (.err err, s)
    | none => (.nil, s)

/-- The method `WSSender.Start`, given a connection.  `written` is the result of the
write of the first send, if one is made. -/
def WSSender.Start (s : WSSender) (ctx : Context) (conn : Conn) (written : Option Error) :
    Outcome × WSSender :=
  let s := { s with conn := some conn }
  let sent := s.sendNextMessage written
  let err := sent.1
  let s := sent.2
  let s := { s with stopped := some false }
  let s := { s with err := none }
  let s := { s with loops := ctx :: s.loops }
  (err, s)

/-- The method `WSSender.IsStopped`: whether the channel it returns is closed. -/
def WSSender.IsStopped (s : WSSender) : Bool := s.stopped = some true

/-- The method `WSSender.Err`. -/
def WSSender.Err (s : WSSender) : Option Error := s.err

/-- What wakes the `select` of `WSSender.run`: the has-pending signal, with the result of
the write the step makes if it makes one, or the cancellation of the context, with the
result of writing the close frame. -/
inductive SenderEvent where
  | hasPending (written : Option Error)
  | cancelled (closed : Option Error)
  deriving DecidableEq, Repr

/-- How one turn of a loop ends: the loop goes on, the loop is left (`break out`), or the
goroutine panics. -/
inductive Turn where
  | goesOn
  | ends
  | panics
  deriving DecidableEq, Repr

/-- One turn of the loop of `WSSender.run`.  Receiving from `hasPendingMessage` takes the
signal; the result of `sendNextMessage` is dropped. -/
def WSSender.runTurn (s : WSSender) : SenderEvent → WSSender × Turn
  | .hasPending written =>
    let s := { s with SenderCommon := { s.SenderCommon with hasPendingMessage := false } }
    match s.sendNextMessage written with
    | (.panic, s) => (s, .panics)
    | (_, s) => (s, .goesOn)
  | .cancelled closed =>
    match s.sendCloseMessage closed with
    | (.panic, s) => (s, .panics)
    | (.err err, s) => ({ s with err := some err }, .ends)
    | (.nil, s) => ({ s with err := none }, .ends)

/-- The method `WSSender.run` on the events that wake it, in order: it closes `stopped`
when the loop is left.  When the events are used up the loop waits in its `select`. -/
def WSSender.run (s : WSSender) : List SenderEvent → WSSender × Turn
  | [] => (s, .goesOn)
  | event :: rest =>
    match s.runTurn event with
    | (s, .goesOn) => WSSender.run s rest
    | (s, .ends) => ({ s with stopped := some true }, .ends)
    | (s, .panics) => (s, .panics)

/-- A sender that was just made and has nothing pending. -/
def newSender : WSSender :=
  { SenderCommon := idleSender, conn := none, logged := [], stopped := none, err := none,
    loops := [] }

/-- A connection on which nothing was written. -/
def freshConn : Conn := { written := [], closeFrames := 0 }
/-- A sender with a connection and the given pending slot. -/
def connectedSender (slot : NextMessage) : WSSender :=
  { newSender with
    SenderCommon := { idleSender with nextMessage := slot }
    conn := some freshConn }

/-- A pending slot that holds the empty message. -/
def emptySlot : NextMessage := { nextMessage := AgentToServer.empty, messagePending := true }

/-- A message that has its flags field populated. -/
def flagsMessage : AgentToServer := { AgentToServer.empty with Flags := 1 }

/-- Whether an event is the has-pending signal. -/
def SenderEvent.isHasPending : SenderEvent → Bool
  | .hasPending _ => true
  | .cancelled _ => false
/-- A sender with a pending message that has its flags populated and no connection
yet. -/
def loadedSender : WSSender :=
  { newSender with
    SenderCommon :=
      { idleSender with nextMessage := { nextMessage := flagsMessage, messagePending := true } } }

/-! ## The WebSocket receiver (`wsreceiver.go`) -/

/-- Modelled from the spec: the inbound message shape (package `protobufs`), a payload the
receiver only hands on. -/
structure ServerToAgent where
  Payload : List Nat
  deriving DecidableEq, Repr

/-- The library constant `websocket.CloseNormalClosure`. -/
def CloseNormalClosure : Nat := 1000

/-- The library function `websocket.IsCloseError` with one code: the error is a close
error (not a wrapped one) and has that code. -/
def IsCloseError (err : Error) (code : Nat) : Bool :=
  match err with
  | .closeError found => found == code
  | _ => false

/-- What `conn.ReadMessage()` returns in one turn of the receiver loop: an error, or the
bytes of one frame. -/
inductive ReadResult where
  | failed (err : Error)
  | frame (bytes : List Nat)
  deriving DecidableEq, Repr

/-- The struct `wsReceiver`, seen through what the loop does: the errors logged as
unexpected and the messages handed to the processor, newest first, whether the processor
context was cancelled, whether `stopped` was closed, and the terminal error. -/
structure wsReceiver where
  logged : List Error
  processed : List ServerToAgent
  processorStopped : Bool
  stopped : Bool
  err : Option Error
  deriving DecidableEq, Repr

/-- The method `wsReceiver.receiveMessage`, with the codec `internal.DecodeWSMessage` as a
parameter: a read error is returned as it is, a decode error wrapped. -/
def wsReceiver.receiveMessage (DecodeWSMessage : List Nat → Except Error ServerToAgent)
    (read : ReadResult) : Except Error ServerToAgent :=
  match read with
  | .failed err => .error err
  | .frame bytes =>
    match DecodeWSMessage bytes with
    | .error err => .error (.wrapped "cannot decode received message" err)
    | .ok msg => .ok msg

/-- One turn of the loop of `wsReceiver.ReceiverLoop`.  `cancelled` says whether
`ctx.Err()` is not nil when the turn looks at it. -/
def wsReceiver.loopTurn (DecodeWSMessage : List Nat → Except Error ServerToAgent)
    (r : wsReceiver) (cancelled : Bool) (read : ReadResult) : wsReceiver × Turn :=
  match wsReceiver.receiveMessage DecodeWSMessage read with
  | .error err =>
    let r :=
      if !cancelled && !IsCloseError err CloseNormalClosure then
        { r with logged := err :: r.logged }
      else r
    let r := { r with err := some err }
    (r, .ends)
  | .ok message => ({ r with processed := message :: r.processed }, .goesOn)

/-- The method `wsReceiver.ReceiverLoop` on what the reads return, in order, each with the
state of the context at that turn: after the loop is left it cancels the processor context
and closes `stopped`.  When the reads are used up the loop waits in its read. -/
def wsReceiver.ReceiverLoop (DecodeWSMessage : List Nat → Except Error ServerToAgent)
    (r : wsReceiver) : List (Bool × ReadResult) → wsReceiver × Turn
  | [] => (r, .goesOn)
  | (cancelled, read) :: rest =>
    match wsReceiver.loopTurn DecodeWSMessage r cancelled read with
    | (r, .goesOn) => wsReceiver.ReceiverLoop DecodeWSMessage r rest
    | (r, _) => ({ r with processorStopped := true, stopped := true }, .ends)

/-- A receiver that was just made. -/
def newReceiver : wsReceiver :=
  { logged := [], processed := [], processorStopped := false, stopped := false, err := none }

/-- A codec for concrete evaluations: a frame that starts with a zero byte does not
decode, any other frame decodes to its bytes. -/
def sampleDecode (bytes : List Nat) : Except Error ServerToAgent :=
  match bytes with
  | 0 :: _ => .error (.collaborator "bad frame")
  | _ => .ok { Payload := bytes }

/-- The lifecycle invariant of a client: the stopping flag is set only if the started flag
is, and the started flag only if a cancellation func is stored. -/
def ClientCommon.lifecycleInvariant (c : ClientCommon) : Prop :=
  (c.isStoppingFlag = true → c.isStarted = true) ∧
  (c.isStarted = true → c.runCancel ≠ none)

/-- Whether the lifecycle invariant holds can be computed. -/
instance ClientCommon.lifecycleInvariant.decidable (c : ClientCommon) :
    Decidable c.lifecycleInvariant := by
  delta ClientCommon.lifecycleInvariant; infer_instance

/-- The package-capability pairing check of `PrepareStart` (lines 106-110 and 118-122) on
its own: the error it returns, if it returns one, for the capabilities of the settings
with `ReportsStatus` added. -/
def pairingError (D : Deps) (settings : StartSettings) : Option Error :=
  match settings.PackagesStateProvider with
  | some _ =>
    if Int.land (Int.lor settings.Capabilities D.ReportsStatus) D.AcceptsPackages = 0 ∨
        Int.land (Int.lor settings.Capabilities D.ReportsStatus) D.ReportsPackageStatuses = 0 then
      some .ErrAcceptsPackagesNotSet
    else none
  | none =>
    if Int.land (Int.lor settings.Capabilities D.ReportsStatus) D.AcceptsPackages ≠ 0 ∨
        Int.land (Int.lor settings.Capabilities D.ReportsStatus) D.ReportsPackageStatuses ≠ 0 then
      some .ErrPackagesStateProviderNotSet
    else none

/-- What the provider of the settings answers to `LastReportedStatuses` (line 114);
without a provider there is nothing and no error. -/
def providerResult (settings : StartSettings) : Option PackageStatuses × Option Error :=
  match settings.PackagesStateProvider with
  | some provider => provider.LastReportedStatuses
  | none => (none, none)

/-- The package statuses `PrepareStart` hands to the store (lines 125-129): the ones the
provider reported, or the empty value. -/
def preparedPackageStatuses (settings : StartSettings) : Option PackageStatuses :=
  match (providerResult settings).1 with
  | none => some { Packages := [], ServerProvidedAllPackagesHash := none, ErrorMessage := "" }
  | some statuses => some statuses

/-- Every step of `PrepareStart` between the health check and the instance uid passes: the
store accepts the remote-config status, the pairing check passes, the provider reports no
error and the store accepts the package statuses. -/
def reachesInstanceUid (D : Deps) (settings : StartSettings) : Prop :=
  D.shapeRemoteConfigStatus settings.fillRemoteConfigStatus.RemoteConfigStatus = none ∧
  pairingError D settings = none ∧
  (providerResult settings).2 = none ∧
  D.shapePackageStatuses (preparedPackageStatuses settings) = none

/-- The error of the first step of `PrepareStart` after the health check that fails, if
one does: the store's rule for the remote-config status, the pairing check, the provider,
the store's rule for the package statuses, the sender's rule for the instance uid. -/
def laterError (D : Deps) (settings : StartSettings) : Option Error :=
  match D.shapeRemoteConfigStatus settings.fillRemoteConfigStatus.RemoteConfigStatus with
  | some e => some e
  | none =>
    match pairingError D settings with
    | some e => some e
    | none =>
      match (providerResult settings).2 with
      | some e => some e
      | none =>
        match D.shapePackageStatuses (preparedPackageStatuses settings) with
        | some e => some e
        | none => D.shapeInstanceUid settings.InstanceUid

/-- Whether every step up to the instance uid passes can be computed. -/
instance reachesInstanceUid.decidable (D : Deps) (settings : StartSettings) :
    Decidable (reachesInstanceUid D settings) := by
  delta reachesInstanceUid; infer_instance

/-- A package-state provider whose `LastReportedStatuses` fails with the error value
`ErrAcceptsPackagesNotSet`. -/
def sentinelProvider : PackagesStateProvider :=
  { LastReportedStatuses := (none, some .ErrAcceptsPackagesNotSet) }

/-- An instance of `Deps` whose sender rejects the empty instance identifier; the bit
masks and the store rules are those of `opampDeps`. -/
def strictUidDeps : Deps :=
  { opampDeps with
    shapeInstanceUid := fun uid =>
      if uid = "" then some (.collaborator "empty instance uid") else none }

/-- Start settings with `ReportsStatus` alone, no provider, and an empty instance uid. -/
def unnamedSettings : StartSettings :=
  { settingsWith 0x1 none with InstanceUid := "" }

/-- An instance of `Deps` whose store accepts every agent description that is not null,
with or without attributes; the bit masks and the other rules are those of `opampDeps`. -/
def presenceDeps : Deps :=
  { opampDeps with
    shapeAgentDescription := fun descr =>
      match descr with
      | none => some .ErrAgentDescriptionMissing
      | some _ => none }

/-- A new client on which `SetAgentDescription` was called with a description without
attributes, the store accepting it. -/
def bareClient : ClientCommon :=
  ((NewClientCommon idleSender).SetAgentDescription presenceDeps (some bareDescription)).2

/-! ## Theorems -/

/-- Past the description and health checks, `PrepareStart` returns the error of the first
later step that fails, or nil, and the store holds the prepared package statuses exactly
when every step up to the instance uid has passed. -/
theorem PrepareStart_late (D : Deps) (c : ClientCommon) (settings : StartSettings)
    (hstart : c.isStarted = false)
    (hdescr : c.ClientSyncedState.agentDescription ≠ none)
    (hhealth : ¬ (Int.land (Int.lor settings.Capabilities D.ReportsStatus) D.ReportsHealth ≠ 0 ∧
      c.ClientSyncedState.health = none)) :
    (c.PrepareStart D settings).1 =
      (match laterError D settings with
        | some e => .err e
        | none => .nil) ∧
    (reachesInstanceUid D settings →
      (c.PrepareStart D settings).2.ClientSyncedState.packageStatuses =
        preparedPackageStatuses settings) ∧
    (¬ reachesInstanceUid D settings →
      (c.PrepareStart D settings).2.ClientSyncedState.packageStatuses =
        c.ClientSyncedState.packageStatuses) := by
  have hh2 : Int.land (Int.lor settings.Capabilities D.ReportsStatus) D.ReportsHealth = 0 ∨
      ¬ c.ClientSyncedState.health = none := by
    by_cases h0 : Int.land (Int.lor settings.Capabilities D.ReportsStatus) D.ReportsHealth = 0
    · exact Or.inl h0
    · exact Or.inr (fun h => hhealth ⟨h0, h⟩)
  rcases hr : D.shapeRemoteConfigStatus
      (match settings.RemoteConfigStatus with
        | none => some { LastRemoteConfigHash := none, Status := .UNSET, ErrorMessage := "" }
        | some status => some status) with _ | er
  swap
  · simp [ClientCommon.PrepareStart, hstart, hdescr, hhealth, hh2, laterError,
      reachesInstanceUid, ClientSyncedState.AgentDescription, ClientSyncedState.Health,
      ClientSyncedState.SetRemoteConfigStatus, StartSettings.fillRemoteConfigStatus, hr]
  rcases hu : D.shapeInstanceUid settings.InstanceUid with _ | e2 <;>
  by_cases ha :
    Int.land (Int.lor settings.Capabilities D.ReportsStatus) D.AcceptsPackages = 0 <;>
  by_cases hb :
    Int.land (Int.lor settings.Capabilities D.ReportsStatus) D.ReportsPackageStatuses = 0 <;>
  rcases hp : settings.PackagesStateProvider with _ | provider
  all_goals first
    | (rcases hps : D.shapePackageStatuses
          (some { Packages := [], ServerProvidedAllPackagesHash := none, ErrorMessage := "" })
        with _ | e1 <;>
       simp [ClientCommon.PrepareStart, hstart, hdescr, hhealth, hh2, laterError,
         reachesInstanceUid, pairingError, providerResult, preparedPackageStatuses,
         ClientSyncedState.AgentDescription, ClientSyncedState.Health,
         ClientSyncedState.SetRemoteConfigStatus, ClientSyncedState.SetPackageStatuses,
         SenderCommon.SetInstanceUid, StartSettings.fillRemoteConfigStatus, hr, hp, ha, hb, hu,
         hps]
       done)
    | (rcases hl : provider.LastReportedStatuses with ⟨_ | st, _ | perr⟩
       · rcases hps : D.shapePackageStatuses
            (some { Packages := [], ServerProvidedAllPackagesHash := none, ErrorMessage := "" })
          with _ | e1 <;>
         simp [ClientCommon.PrepareStart, hstart, hdescr, hhealth, hh2, laterError,
           reachesInstanceUid, pairingError, providerResult, preparedPackageStatuses,
           ClientSyncedState.AgentDescription, ClientSyncedState.Health,
           ClientSyncedState.SetRemoteConfigStatus, ClientSyncedState.SetPackageStatuses,
           SenderCommon.SetInstanceUid, StartSettings.fillRemoteConfigStatus, hr, hp, ha, hb,
           hu, hps, hl]
       · simp [ClientCommon.PrepareStart, hstart, hdescr, hhealth, hh2, laterError,
           reachesInstanceUid, pairingError, providerResult, preparedPackageStatuses,
           ClientSyncedState.AgentDescription, ClientSyncedState.Health,
           ClientSyncedState.SetRemoteConfigStatus, ClientSyncedState.SetPackageStatuses,
           SenderCommon.SetInstanceUid, StartSettings.fillRemoteConfigStatus, hr, hp, ha, hb,
           hu, hl]
       · rcases hps : D.shapePackageStatuses (some st) with _ | e1 <;>
         simp [ClientCommon.PrepareStart, hstart, hdescr, hhealth, hh2, laterError,
           reachesInstanceUid, pairingError, providerResult, preparedPackageStatuses,
           ClientSyncedState.AgentDescription, ClientSyncedState.Health,
           ClientSyncedState.SetRemoteConfigStatus, ClientSyncedState.SetPackageStatuses,
           SenderCommon.SetInstanceUid, StartSettings.fillRemoteConfigStatus, hr, hp, ha, hb,
           hu, hps, hl]
       · simp [ClientCommon.PrepareStart, hstart, hdescr, hhealth, hh2, laterError,
           reachesInstanceUid, pairingError, providerResult, preparedPackageStatuses,
           ClientSyncedState.AgentDescription, ClientSyncedState.Health,
           ClientSyncedState.SetRemoteConfigStatus, ClientSyncedState.SetPackageStatuses,
           SenderCommon.SetInstanceUid, StartSettings.fillRemoteConfigStatus, hr, hp, ha, hb,
           hu, hl])

/-- When the steps after the pairing check fail only with errors of their own, and the
earlier checks pass, `PrepareStart` returns each of the two pairing errors exactly when the
pairing check fails with it. -/
theorem PrepareStart_pairing_exactly (D : Deps) (c : ClientCommon) (settings : StartSettings)
    (hstart : c.isStarted = false)
    (hdescr : c.ClientSyncedState.AgentDescription ≠ none)
    (hhealth : Int.land (Int.lor settings.Capabilities D.ReportsStatus) D.ReportsHealth ≠ 0 →
      c.ClientSyncedState.Health ≠ none)
    (hstatus : (c.ClientSyncedState.SetRemoteConfigStatus D
      settings.fillRemoteConfigStatus.RemoteConfigStatus).1 = none)
    (hlater : laterStepsHaveOwnErrors D settings) :
    ((c.PrepareStart D settings).1 = .err .ErrAcceptsPackagesNotSet ↔
      settings.PackagesStateProvider ≠ none ∧
        (Int.land (Int.lor settings.Capabilities D.ReportsStatus) D.AcceptsPackages = 0 ∨
          Int.land (Int.lor settings.Capabilities D.ReportsStatus)
            D.ReportsPackageStatuses = 0)) ∧
    ((c.PrepareStart D settings).1 = .err .ErrPackagesStateProviderNotSet ↔
      settings.PackagesStateProvider = none ∧
        (Int.land (Int.lor settings.Capabilities D.ReportsStatus) D.AcceptsPackages ≠ 0 ∨
          Int.land (Int.lor settings.Capabilities D.ReportsStatus)
            D.ReportsPackageStatuses ≠ 0)) ∧
    (((c.PrepareStart D settings).1 ≠ .err .ErrAcceptsPackagesNotSet ∧
        (c.PrepareStart D settings).1 ≠ .err .ErrPackagesStateProviderNotSet) ↔
      (settings.PackagesStateProvider ≠ none ∧
        Int.land (Int.lor settings.Capabilities D.ReportsStatus) D.AcceptsPackages ≠ 0 ∧
        Int.land (Int.lor settings.Capabilities D.ReportsStatus)
          D.ReportsPackageStatuses ≠ 0) ∨
      (settings.PackagesStateProvider = none ∧
        Int.land (Int.lor settings.Capabilities D.ReportsStatus) D.AcceptsPackages = 0 ∧
        Int.land (Int.lor settings.Capabilities D.ReportsStatus)
          D.ReportsPackageStatuses = 0)) := by
  have key : ((c.PrepareStart D settings).1 = .err .ErrAcceptsPackagesNotSet ↔
      settings.PackagesStateProvider ≠ none ∧
        (Int.land (Int.lor settings.Capabilities D.ReportsStatus) D.AcceptsPackages = 0 ∨
          Int.land (Int.lor settings.Capabilities D.ReportsStatus)
            D.ReportsPackageStatuses = 0)) ∧
    ((c.PrepareStart D settings).1 = .err .ErrPackagesStateProviderNotSet ↔
      settings.PackagesStateProvider = none ∧
        (Int.land (Int.lor settings.Capabilities D.ReportsStatus) D.AcceptsPackages ≠ 0 ∨
          Int.land (Int.lor settings.Capabilities D.ReportsStatus)
            D.ReportsPackageStatuses ≠ 0)) := by
    obtain ⟨h1, h2, h3⟩ := hlater
    have hshape :
        D.shapeRemoteConfigStatus settings.fillRemoteConfigStatus.RemoteConfigStatus = none := by
      unfold ClientSyncedState.SetRemoteConfigStatus at hstatus
      split at hstatus
      · simp at hstatus
      · assumption
    simp only [StartSettings.fillRemoteConfigStatus] at hshape
    have hh : ¬ (Int.land (Int.lor settings.Capabilities D.ReportsStatus) D.ReportsHealth ≠ 0 ∧
        c.ClientSyncedState.Health = none) := fun h => hhealth h.1 h.2
    have hS : ∀ v, D.shapePackageStatuses v ≠ some .ErrAcceptsPackagesNotSet ∧
        D.shapePackageStatuses v ≠ some .ErrPackagesStateProviderNotSet := by
      intro v
      constructor <;> intro h <;> have := h2 _ _ h <;> simp [Error.isPairingError] at this
    have hU : D.shapeInstanceUid settings.InstanceUid ≠ some .ErrAcceptsPackagesNotSet ∧
        D.shapeInstanceUid settings.InstanceUid ≠ some .ErrPackagesStateProviderNotSet := by
      constructor <;> intro h <;> have := h3 _ h <;> simp [Error.isPairingError] at this
    rcases hp : settings.PackagesStateProvider with _ | provider
    · by_cases ha :
        Int.land (Int.lor settings.Capabilities D.ReportsStatus) D.AcceptsPackages = 0 <;>
      by_cases hb :
        Int.land (Int.lor settings.Capabilities D.ReportsStatus) D.ReportsPackageStatuses = 0 <;>
      simp [ClientCommon.PrepareStart, hstart, hdescr, hh,
        ClientSyncedState.SetRemoteConfigStatus, ClientSyncedState.SetPackageStatuses,
        SenderCommon.SetInstanceUid, StartSettings.fillRemoteConfigStatus, hshape, hp, ha, hb]
      rcases hs : D.shapePackageStatuses
          (some { Packages := [], ServerProvidedAllPackagesHash := none, ErrorMessage := "" })
        with _ | e1 <;>
      rcases hu : D.shapeInstanceUid settings.InstanceUid with _ | e2 <;>
      simp <;>
      first
      | (constructor <;> rintro rfl <;> simp_all)
    · have hP : ∀ statuses,
          provider.LastReportedStatuses ≠ (statuses, some .ErrAcceptsPackagesNotSet) ∧
          provider.LastReportedStatuses ≠ (statuses, some .ErrPackagesStateProviderNotSet) := by
        intro v
        constructor <;> intro h <;> have := h1 _ _ _ hp h <;>
          simp [Error.isPairingError] at this
      by_cases ha :
        Int.land (Int.lor settings.Capabilities D.ReportsStatus) D.AcceptsPackages = 0 <;>
      by_cases hb :
        Int.land (Int.lor settings.Capabilities D.ReportsStatus) D.ReportsPackageStatuses = 0 <;>
      simp [ClientCommon.PrepareStart, hstart, hdescr, hh,
        ClientSyncedState.SetRemoteConfigStatus, ClientSyncedState.SetPackageStatuses,
        SenderCommon.SetInstanceUid, StartSettings.fillRemoteConfigStatus, hshape, hp, ha, hb]
      rcases hl : provider.LastReportedStatuses with ⟨_ | st, _ | perr⟩
      · simp
        rcases hs : D.shapePackageStatuses
            (some { Packages := [], ServerProvidedAllPackagesHash := none, ErrorMessage := "" })
          with _ | e1 <;>
        rcases hu : D.shapeInstanceUid settings.InstanceUid with _ | e2 <;>
        simp <;>
        first
        | (constructor <;> rintro rfl <;> simp_all)
      · simp
        constructor <;> rintro rfl <;> simp_all
      · simp
        rcases hs : D.shapePackageStatuses (some st) with _ | e1 <;>
        rcases hu : D.shapeInstanceUid settings.InstanceUid with _ | e2 <;>
        simp <;>
        first
        | (constructor <;> rintro rfl <;> simp_all)
      · simp
        constructor <;> rintro rfl <;> simp_all
  refine ⟨key.1, key.2, ?_⟩
  simp only [ne_eq, key.1, key.2]
  by_cases hp : settings.PackagesStateProvider = none <;>
  by_cases ha :
    Int.land (Int.lor settings.Capabilities D.ReportsStatus) D.AcceptsPackages = 0 <;>
  by_cases hb :
    Int.land (Int.lor settings.Capabilities D.ReportsStatus) D.ReportsPackageStatuses = 0 <;>
  simp [hp, ha, hb]

/-- C1, counterexample: with a provider and both the `AcceptsPackages` and
`ReportsPackageStatuses` bits set the pairing check passes, and `PrepareStart` still
returns `ErrAcceptsPackagesNotSet` when the provider's `LastReportedStatuses` fails with
that error, which line 116 passes on. -/
theorem PrepareStart_passes_on_provider_error :
    (settingsWith 0x18 (some sentinelProvider)).PackagesStateProvider ≠ none ∧
    Int.land (Int.lor (settingsWith 0x18 (some sentinelProvider)).Capabilities
      opampDeps.ReportsStatus) opampDeps.AcceptsPackages ≠ 0 ∧
    Int.land (Int.lor (settingsWith 0x18 (some sentinelProvider)).Capabilities
      opampDeps.ReportsStatus) opampDeps.ReportsPackageStatuses ≠ 0 ∧
    (describedClient.PrepareStart opampDeps (settingsWith 0x18 (some sentinelProvider))).1 =
      .err .ErrAcceptsPackagesNotSet := by
  refine ⟨by simp [settingsWith], by decide, by decide, by decide⟩

/-- C1, amended. On a not-started client whose earlier checks pass (description present,
health present when `ReportsHealth` is enabled, remote-config status accepted by the
store): `PrepareStart` returns `ErrAcceptsPackagesNotSet` whenever a provider is given and
one of the `AcceptsPackages` and `ReportsPackageStatuses` bits is clear, returns
`ErrPackagesStateProviderNotSet` whenever no provider is given and one of the two bits is
set, and succeeds only when both bits are set with a provider or both are clear without
one.  When the steps after the pairing check, whose errors it passes on, fail only with
errors of their own, it returns each of the two errors exactly in that case, and returns
neither exactly when both bits are set with a provider or both are clear without one.
When both bits are set with a provider or both are clear without one it gets past the
pairing check: what it returns is the error of the first later step that fails (the
provider, the store taking the package statuses, the sender taking the instance uid), or
nil. -/
theorem PrepareStart_pairing (D : Deps) (c : ClientCommon) (settings : StartSettings)
    (hstart : c.isStarted = false)
    (hdescr : c.ClientSyncedState.AgentDescription ≠ none)
    (hhealth : Int.land (Int.lor settings.Capabilities D.ReportsStatus) D.ReportsHealth ≠ 0 →
      c.ClientSyncedState.Health ≠ none)
    (hstatus : (c.ClientSyncedState.SetRemoteConfigStatus D
      settings.fillRemoteConfigStatus.RemoteConfigStatus).1 = none) :
    (settings.PackagesStateProvider ≠ none ∧
        (Int.land (Int.lor settings.Capabilities D.ReportsStatus) D.AcceptsPackages = 0 ∨
          Int.land (Int.lor settings.Capabilities D.ReportsStatus)
            D.ReportsPackageStatuses = 0) →
      (c.PrepareStart D settings).1 = .err .ErrAcceptsPackagesNotSet) ∧
    (settings.PackagesStateProvider = none ∧
        (Int.land (Int.lor settings.Capabilities D.ReportsStatus) D.AcceptsPackages ≠ 0 ∨
          Int.land (Int.lor settings.Capabilities D.ReportsStatus)
            D.ReportsPackageStatuses ≠ 0) →
      (c.PrepareStart D settings).1 = .err .ErrPackagesStateProviderNotSet) ∧
    ((c.PrepareStart D settings).1 = .nil →
      (settings.PackagesStateProvider ≠ none ∧
        Int.land (Int.lor settings.Capabilities D.ReportsStatus) D.AcceptsPackages ≠ 0 ∧
        Int.land (Int.lor settings.Capabilities D.ReportsStatus)
          D.ReportsPackageStatuses ≠ 0) ∨
      (settings.PackagesStateProvider = none ∧
        Int.land (Int.lor settings.Capabilities D.ReportsStatus) D.AcceptsPackages = 0 ∧
        Int.land (Int.lor settings.Capabilities D.ReportsStatus)
          D.ReportsPackageStatuses = 0)) ∧
    (laterStepsHaveOwnErrors D settings →
      ((c.PrepareStart D settings).1 = .err .ErrAcceptsPackagesNotSet ↔
        settings.PackagesStateProvider ≠ none ∧
          (Int.land (Int.lor settings.Capabilities D.ReportsStatus) D.AcceptsPackages = 0 ∨
            Int.land (Int.lor settings.Capabilities D.ReportsStatus)
              D.ReportsPackageStatuses = 0)) ∧
      ((c.PrepareStart D settings).1 = .err .ErrPackagesStateProviderNotSet ↔
        settings.PackagesStateProvider = none ∧
          (Int.land (Int.lor settings.Capabilities D.ReportsStatus) D.AcceptsPackages ≠ 0 ∨
            Int.land (Int.lor settings.Capabilities D.ReportsStatus)
              D.ReportsPackageStatuses ≠ 0)) ∧
      (((c.PrepareStart D settings).1 ≠ .err .ErrAcceptsPackagesNotSet ∧
          (c.PrepareStart D settings).1 ≠ .err .ErrPackagesStateProviderNotSet) ↔
        (settings.PackagesStateProvider ≠ none ∧
          Int.land (Int.lor settings.Capabilities D.ReportsStatus) D.AcceptsPackages ≠ 0 ∧
          Int.land (Int.lor settings.Capabilities D.ReportsStatus)
            D.ReportsPackageStatuses ≠ 0) ∨
        (settings.PackagesStateProvider = none ∧
          Int.land (Int.lor settings.Capabilities D.ReportsStatus) D.AcceptsPackages = 0 ∧
          Int.land (Int.lor settings.Capabilities D.ReportsStatus)
            D.ReportsPackageStatuses = 0))) ∧
    (((settings.PackagesStateProvider ≠ none ∧
        Int.land (Int.lor settings.Capabilities D.ReportsStatus) D.AcceptsPackages ≠ 0 ∧
        Int.land (Int.lor settings.Capabilities D.ReportsStatus)
          D.ReportsPackageStatuses ≠ 0) ∨
      (settings.PackagesStateProvider = none ∧
        Int.land (Int.lor settings.Capabilities D.ReportsStatus) D.AcceptsPackages = 0 ∧
        Int.land (Int.lor settings.Capabilities D.ReportsStatus)
          D.ReportsPackageStatuses = 0)) →
      (c.PrepareStart D settings).1 =
        (match (providerResult settings).2 with
          | some e => .err e
          | none =>
            match D.shapePackageStatuses (preparedPackageStatuses settings) with
            | some e => .err e
            | none =>
              match D.shapeInstanceUid settings.InstanceUid with
              | some e => .err e
              | none => .nil)) := by
  have hshape :
      D.shapeRemoteConfigStatus settings.fillRemoteConfigStatus.RemoteConfigStatus = none := by
    unfold ClientSyncedState.SetRemoteConfigStatus at hstatus
    split at hstatus
    · simp at hstatus
    · assumption
  have hout := (PrepareStart_late D c settings hstart hdescr
    (fun h => hhealth h.1 h.2)).1
  simp only [laterError, hshape] at hout
  refine ⟨?_, ?_, ?_, fun hlater =>
    PrepareStart_pairing_exactly D c settings hstart hdescr hhealth hstatus hlater, ?_⟩
  · rintro ⟨hp, hclear⟩
    rcases hprov : settings.PackagesStateProvider with _ | provider
    · exact absurd hprov hp
    · rw [hout]
      simp [pairingError, hprov, hclear]
  · rintro ⟨hp, hset⟩
    rw [hout]
    simp only [pairingError, hp, ne_eq] at hset ⊢
    simp [hset]
  · intro hnil
    rw [hout] at hnil
    rcases hprov : settings.PackagesStateProvider with _ | provider <;>
    by_cases ha :
      Int.land (Int.lor settings.Capabilities D.ReportsStatus) D.AcceptsPackages = 0 <;>
    by_cases hb :
      Int.land (Int.lor settings.Capabilities D.ReportsStatus) D.ReportsPackageStatuses = 0 <;>
    simp [pairingError, hprov, ha, hb] at hnil ⊢
  · intro hright
    have hpair : pairingError D settings = none := by
      rcases hright with ⟨hp, ha, hb⟩ | ⟨hp, ha, hb⟩
      · rcases hprov : settings.PackagesStateProvider with _ | provider
        · exact absurd hprov hp
        · simp [pairingError, hprov, ha, hb]
      · simp [pairingError, hp, ha, hb]
    rw [hout]
    simp only [hpair]
    rcases hres : (providerResult settings).2 with _ | e1
    · rcases hps : D.shapePackageStatuses (preparedPackageStatuses settings) with _ | e2
      · rcases hu : D.shapeInstanceUid settings.InstanceUid with _ | e3 <;> rfl
      · rfl
    · rfl

/-- C1, amended, at concrete inputs: a described client started with `AcceptsPackages`
alone and a provider gets `ErrAcceptsPackagesNotSet`; started with both bits and a provider
that does not fail, it gets neither of the two errors. -/
theorem PrepareStart_pairing_witness :
    (describedClient.PrepareStart opampDeps (settingsWith 0x8 (some emptyProvider))).1 =
      .err .ErrAcceptsPackagesNotSet ∧
    laterStepsHaveOwnErrors opampDeps (settingsWith 0x18 (some emptyProvider)) ∧
    (describedClient.PrepareStart opampDeps (settingsWith 0x18 (some emptyProvider))).1 ≠
      .err .ErrAcceptsPackagesNotSet ∧
    (describedClient.PrepareStart opampDeps (settingsWith 0x18 (some emptyProvider))).1 ≠
      .err .ErrPackagesStateProviderNotSet :=
  have hlater : laterStepsHaveOwnErrors opampDeps (settingsWith 0x18 (some emptyProvider)) :=
    ⟨by
      intro provider statuses e hp hl
      have h : emptyProvider = provider := by
        simpa [settingsWith] using hp
      subst h
      simp [emptyProvider] at hl,
     by intro statuses e h; simp [opampDeps] at h,
     by intro e h; simp [opampDeps] at h⟩
  ⟨(PrepareStart_pairing opampDeps describedClient (settingsWith 0x8 (some emptyProvider))
      (by decide) (by decide) (by decide) (by decide)).1 ⟨by simp [settingsWith], by decide⟩,
    hlater,
    ((PrepareStart_pairing opampDeps describedClient (settingsWith 0x18 (some emptyProvider))
      (by decide) (by decide) (by decide) (by decide)).2.2.2.1 hlater).2.2.mpr
      (Or.inl ⟨by simp [settingsWith], by decide, by decide⟩)⟩

/-- C2. With its capability bit set and an argument with a non-null hash that the store
accepts, each of `SetRemoteConfigStatus` and `SetPackageStatuses` returns nil and commits
the argument to the synced state; when the argument is not `proto.Equal` to the value
stored before, the pending message gets the argument in its field (and nothing else
changes in it) and a send is scheduled; when it is equal, the sender with its pending
message is untouched; so a send is scheduled if and only if the argument differs. -/
theorem changeGated_setters_commit_and_send_on_change (D : Deps) (c : ClientCommon) :
    (∀ status : RemoteConfigStatus,
      Int.land c.Capabilities D.ReportsRemoteConfig ≠ 0 →
      status.LastRemoteConfigHash ≠ none →
      (c.ClientSyncedState.SetRemoteConfigStatus D (some status)).1 = none →
      (c.SetRemoteConfigStatus D (some status)).1 = .nil ∧
      (c.SetRemoteConfigStatus D (some status)).2.ClientSyncedState =
        { c.ClientSyncedState with remoteConfigStatus := some status } ∧
      (protoEqual RemoteConfigStatus.equal c.ClientSyncedState.RemoteConfigStatus
          (some status) = false →
        (c.SetRemoteConfigStatus D (some status)).2.pendingMessage =
            { c.pendingMessage with RemoteConfigStatus := some status } ∧
          (c.SetRemoteConfigStatus D (some status)).2.sender.hasPendingMessage = true ∧
          (c.SetRemoteConfigStatus D (some status)).2.sender.scheduleSendCalls =
            c.sender.scheduleSendCalls + 1) ∧
      (protoEqual RemoteConfigStatus.equal c.ClientSyncedState.RemoteConfigStatus
          (some status) = true →
        (c.SetRemoteConfigStatus D (some status)).2.sender = c.sender) ∧
      ((c.SetRemoteConfigStatus D (some status)).2.sender.scheduleSendCalls =
          c.sender.scheduleSendCalls + 1 ↔
        protoEqual RemoteConfigStatus.equal c.ClientSyncedState.RemoteConfigStatus
          (some status) = false)) ∧
    (∀ statuses : PackageStatuses,
      Int.land c.Capabilities D.ReportsPackageStatuses ≠ 0 →
      statuses.ServerProvidedAllPackagesHash ≠ none →
      (c.ClientSyncedState.SetPackageStatuses D (some statuses)).1 = none →
      (c.SetPackageStatuses D (some statuses)).1 = .nil ∧
      (c.SetPackageStatuses D (some statuses)).2.ClientSyncedState =
        { c.ClientSyncedState with packageStatuses := some statuses } ∧
      (protoEqual PackageStatuses.equal c.ClientSyncedState.PackageStatuses
          (some statuses) = false →
        (c.SetPackageStatuses D (some statuses)).2.pendingMessage =
            { c.pendingMessage with PackageStatuses := some statuses } ∧
          (c.SetPackageStatuses D (some statuses)).2.sender.hasPendingMessage = true ∧
          (c.SetPackageStatuses D (some statuses)).2.sender.scheduleSendCalls =
            c.sender.scheduleSendCalls + 1) ∧
      (protoEqual PackageStatuses.equal c.ClientSyncedState.PackageStatuses
          (some statuses) = true →
        (c.SetPackageStatuses D (some statuses)).2.sender = c.sender) ∧
      ((c.SetPackageStatuses D (some statuses)).2.sender.scheduleSendCalls =
          c.sender.scheduleSendCalls + 1 ↔
        protoEqual PackageStatuses.equal c.ClientSyncedState.PackageStatuses
          (some statuses) = false)) := by
  constructor
  · intro status hcap hhash haccept
    have hshape : D.shapeRemoteConfigStatus (some status) = none := by
      unfold ClientSyncedState.SetRemoteConfigStatus at haccept
      split at haccept
      · simp at haccept
      · assumption
    simp only [ClientSyncedState.RemoteConfigStatus]
    cases heq : protoEqual RemoteConfigStatus.equal c.ClientSyncedState.remoteConfigStatus
        (some status) <;>
    simp [ClientCommon.SetRemoteConfigStatus, hcap, hhash, hshape, heq,
      ClientSyncedState.SetRemoteConfigStatus, ClientCommon.pendingMessage,
      SenderCommon.UpdateNextMessage, SenderCommon.ScheduleSend, NextMessage.Update,
      ClientSyncedState.RemoteConfigStatus]
  · intro statuses hcap hhash haccept
    have hshape : D.shapePackageStatuses (some statuses) = none := by
      unfold ClientSyncedState.SetPackageStatuses at haccept
      split at haccept
      · simp at haccept
      · assumption
    simp only [ClientSyncedState.PackageStatuses]
    cases heq : protoEqual PackageStatuses.equal c.ClientSyncedState.packageStatuses
        (some statuses) <;>
    simp [ClientCommon.SetPackageStatuses, hcap, hhash, hshape, heq,
      ClientSyncedState.SetPackageStatuses, ClientCommon.pendingMessage,
      SenderCommon.UpdateNextMessage, SenderCommon.ScheduleSend, NextMessage.Update,
      ClientSyncedState.PackageStatuses]

/-- C2, at a concrete input: a first status and first package statuses on a client
prepared with both reporting capabilities. -/
theorem changeGated_setters_witness :
    (reportingClient.SetRemoteConfigStatus opampDeps (some appliedStatus)).1 = .nil ∧
    (reportingClient.SetPackageStatuses opampDeps (some hashedStatuses)).1 = .nil :=
  ⟨((changeGated_setters_commit_and_send_on_change opampDeps reportingClient).1 appliedStatus
      (by decide) (by decide) (by decide)).1,
   ((changeGated_setters_commit_and_send_on_change opampDeps reportingClient).2 hashedStatuses
      (by decide) (by decide) (by decide)).1⟩

/-- C3. With its capability bit clear, each of `SetPackageStatuses`,
`SetRemoteConfigStatus` and `UpdateEffectiveConfig` returns its capability-not-set error,
for every argument, and leaves the client as it was: synced state, pending message and
send schedule included. -/
theorem capability_gate_rejects_without_change (D : Deps) (c : ClientCommon) :
    (Int.land c.Capabilities D.ReportsPackageStatuses = 0 →
      ∀ statuses, c.SetPackageStatuses D statuses =
        (.err .errReportsPackageStatusesNotSet, c)) ∧
    (Int.land c.Capabilities D.ReportsRemoteConfig = 0 →
      ∀ status, c.SetRemoteConfigStatus D status =
        (.err .ErrReportsRemoteConfigNotSet, c)) ∧
    (Int.land c.Capabilities D.ReportsEffectiveConfig = 0 →
      ∀ ctx, c.UpdateEffectiveConfig D ctx =
        (.err .ErrReportsEffectiveConfigNotSet, c)) := by
  refine ⟨?_, ?_, ?_⟩
  · intro h statuses
    simp [ClientCommon.SetPackageStatuses, h]
  · intro h status
    simp [ClientCommon.SetRemoteConfigStatus, h]
  · intro h ctx
    simp [ClientCommon.UpdateEffectiveConfig, h]

/-- C3, at a concrete input: a new client, whose capability mask is zero. -/
theorem capability_gate_witness :
    (NewClientCommon idleSender).SetPackageStatuses opampDeps (some hashedStatuses) =
        (.err .errReportsPackageStatusesNotSet, NewClientCommon idleSender) ∧
    (NewClientCommon idleSender).SetRemoteConfigStatus opampDeps (some appliedStatus) =
        (.err .ErrReportsRemoteConfigNotSet, NewClientCommon idleSender) ∧
    (NewClientCommon idleSender).UpdateEffectiveConfig opampDeps 0 =
        (.err .ErrReportsEffectiveConfigNotSet, NewClientCommon idleSender) :=
  ⟨(capability_gate_rejects_without_change opampDeps (NewClientCommon idleSender)).1
      (by decide) _,
   (capability_gate_rejects_without_change opampDeps (NewClientCommon idleSender)).2.1
      (by decide) _,
   (capability_gate_rejects_without_change opampDeps (NewClientCommon idleSender)).2.2
      (by decide) _⟩

/-- C4. When the pending message already holds a custom message `m1` and `m2` is a custom
message whose capability is in the current custom-capabilities set,
`SendCustomMessage(m2)` returns the message-already-pending error with the handle of the
pending message; the pending message is what it was, in particular its custom message is
still `m1`; the synced state is unchanged and no send is scheduled. -/
theorem SendCustomMessage_pending_not_overwritten (c : ClientCommon) (m1 m2 : CustomMessage)
    (hpending : c.pendingMessage.CustomMessage = some m1)
    (hcap : c.ClientSyncedState.HasCustomCapability m2.Capability = true) :
    (c.SendCustomMessage (some m2)).1 = (some .mk, .err .ErrCustomMessagePending) ∧
    (c.SendCustomMessage (some m2)).2.pendingMessage = c.pendingMessage ∧
    (c.SendCustomMessage (some m2)).2.pendingMessage.CustomMessage = some m1 ∧
    (c.SendCustomMessage (some m2)).2.ClientSyncedState = c.ClientSyncedState ∧
    (c.SendCustomMessage (some m2)).2.sender.scheduleSendCalls = c.sender.scheduleSendCalls ∧
    (c.SendCustomMessage (some m2)).2.sender.hasPendingMessage =
      c.sender.hasPendingMessage := by
  simp only [ClientCommon.pendingMessage] at hpending
  simp [ClientCommon.SendCustomMessage, hcap, customMessageModifier, hpending,
    ClientCommon.pendingMessage, SenderCommon.UpdateNextMessage, NextMessage.Update]

/-- C4, at a concrete input: a second message while the first is queued. -/
theorem SendCustomMessage_pending_witness :
    (queuedClient.SendCustomMessage (some secondMessage)).1 =
        (some .mk, .err .ErrCustomMessagePending) ∧
    (queuedClient.SendCustomMessage (some secondMessage)).2.pendingMessage.CustomMessage =
        some firstMessage :=
  ⟨(SendCustomMessage_pending_not_overwritten queuedClient firstMessage secondMessage
      (by decide) (by decide)).1,
   (SendCustomMessage_pending_not_overwritten queuedClient firstMessage secondMessage
      (by decide) (by decide)).2.2.1⟩

/-- C10. For every capability mask and every value the state store accepts, each of
`SetAgentDescription`, `SetHealth` and `SetCustomCapabilities` returns nil, stores the
value, puts it into its field of the pending message (and changes no other field of it)
and schedules a send; `SetFlags` does the same with the flags, as `uint64`.  Nothing is
assumed about the value stored before, nor about the `ReportsHealth` bit; and a client that
differs in the capability mask alone gets the same outcome, its mask kept. -/
theorem alwaysSend_setters_store_merge_and_schedule (D : Deps) (c : ClientCommon) :
    (∀ descr, (c.ClientSyncedState.SetAgentDescription D descr).1 = none →
      (c.SetAgentDescription D descr).1 = .nil ∧
      (c.SetAgentDescription D descr).2.ClientSyncedState =
        { c.ClientSyncedState with agentDescription := descr } ∧
      (c.SetAgentDescription D descr).2.pendingMessage =
        { c.pendingMessage with AgentDescription := descr } ∧
      (c.SetAgentDescription D descr).2.sender.hasPendingMessage = true ∧
      (c.SetAgentDescription D descr).2.sender.scheduleSendCalls =
        c.sender.scheduleSendCalls + 1) ∧
    (∀ health, (c.ClientSyncedState.SetHealth D health).1 = none →
      (c.SetHealth D health).1 = .nil ∧
      (c.SetHealth D health).2.ClientSyncedState =
        { c.ClientSyncedState with health := health } ∧
      (c.SetHealth D health).2.pendingMessage = { c.pendingMessage with Health := health } ∧
      (c.SetHealth D health).2.sender.hasPendingMessage = true ∧
      (c.SetHealth D health).2.sender.scheduleSendCalls = c.sender.scheduleSendCalls + 1) ∧
    (∀ caps, (c.ClientSyncedState.SetCustomCapabilities D caps).1 = none →
      (c.SetCustomCapabilities D caps).1 = .nil ∧
      (c.SetCustomCapabilities D caps).2.ClientSyncedState =
        { c.ClientSyncedState with customCapabilities := caps } ∧
      (c.SetCustomCapabilities D caps).2.pendingMessage =
        { c.pendingMessage with CustomCapabilities := caps } ∧
      (c.SetCustomCapabilities D caps).2.sender.hasPendingMessage = true ∧
      (c.SetCustomCapabilities D caps).2.sender.scheduleSendCalls =
        c.sender.scheduleSendCalls + 1) ∧
    (∀ flags,
      (c.SetFlags flags).ClientSyncedState = { c.ClientSyncedState with flags := uint64 flags } ∧
      (c.SetFlags flags).pendingMessage = { c.pendingMessage with Flags := uint64 flags } ∧
      (c.SetFlags flags).sender.hasPendingMessage = true ∧
      (c.SetFlags flags).sender.scheduleSendCalls = c.sender.scheduleSendCalls + 1) ∧
    (∀ mask : Int,
      (∀ descr, ClientCommon.SetAgentDescription D { c with Capabilities := mask } descr =
        ((c.SetAgentDescription D descr).1,
          { (c.SetAgentDescription D descr).2 with Capabilities := mask })) ∧
      (∀ health, ClientCommon.SetHealth D { c with Capabilities := mask } health =
        ((c.SetHealth D health).1, { (c.SetHealth D health).2 with Capabilities := mask })) ∧
      (∀ caps, ClientCommon.SetCustomCapabilities D { c with Capabilities := mask } caps =
        ((c.SetCustomCapabilities D caps).1,
          { (c.SetCustomCapabilities D caps).2 with Capabilities := mask })) ∧
      (∀ flags, ClientCommon.SetFlags { c with Capabilities := mask } flags =
        { c.SetFlags flags with Capabilities := mask })) := by
  refine ⟨?_, ?_, ?_, ?_, ?_⟩
  · intro descr h
    have hshape : D.shapeAgentDescription descr = none := by
      unfold ClientSyncedState.SetAgentDescription at h
      split at h
      · simp at h
      · assumption
    simp [ClientCommon.SetAgentDescription, ClientSyncedState.SetAgentDescription, hshape,
      ClientCommon.pendingMessage, SenderCommon.UpdateNextMessage, SenderCommon.ScheduleSend,
      NextMessage.Update, ClientSyncedState.AgentDescription]
  · intro health h
    have hshape : D.shapeHealth health = none := by
      unfold ClientSyncedState.SetHealth at h
      split at h
      · simp at h
      · assumption
    simp [ClientCommon.SetHealth, ClientSyncedState.SetHealth, hshape,
      ClientCommon.pendingMessage, SenderCommon.UpdateNextMessage, SenderCommon.ScheduleSend,
      NextMessage.Update, ClientSyncedState.Health]
  · intro caps h
    have hshape : D.shapeCustomCapabilities caps = none := by
      unfold ClientSyncedState.SetCustomCapabilities at h
      split at h
      · simp at h
      · assumption
    simp [ClientCommon.SetCustomCapabilities, ClientSyncedState.SetCustomCapabilities, hshape,
      ClientCommon.pendingMessage, SenderCommon.UpdateNextMessage, SenderCommon.ScheduleSend,
      NextMessage.Update, ClientSyncedState.CustomCapabilities]
  · intro flags
    simp [ClientCommon.SetFlags, ClientSyncedState.SetFlags,
      ClientCommon.pendingMessage, SenderCommon.UpdateNextMessage, SenderCommon.ScheduleSend,
      NextMessage.Update]
  · intro mask
    refine ⟨?_, ?_, ?_, ?_⟩
    · intro descr
      simp only [ClientCommon.SetAgentDescription, ClientSyncedState.SetAgentDescription]
      cases D.shapeAgentDescription descr <;> rfl
    · intro health
      simp only [ClientCommon.SetHealth, ClientSyncedState.SetHealth]
      cases D.shapeHealth health <;> rfl
    · intro caps
      simp only [ClientCommon.SetCustomCapabilities, ClientSyncedState.SetCustomCapabilities]
      cases D.shapeCustomCapabilities caps <;> rfl
    · intro flags
      rfl

/-- C10, at a concrete input: `SetHealth` on a client whose mask is zero, so that the
`ReportsHealth` bit is clear. -/
theorem alwaysSend_setters_witness :
    describedClient.Capabilities = 0 ∧
    (describedClient.SetHealth opampDeps (some healthy)).1 = .nil ∧
    (describedClient.SetHealth opampDeps (some healthy)).2.sender.scheduleSendCalls =
      describedClient.sender.scheduleSendCalls + 1 :=
  ⟨by decide,
   ((alwaysSend_setters_store_merge_and_schedule opampDeps describedClient).2.1
      (some healthy) (by decide)).1,
   ((alwaysSend_setters_store_merge_and_schedule opampDeps describedClient).2.1
      (some healthy) (by decide)).2.2.2.2⟩

/-- C5, the code at the failing input: a reconnect.  The synced state holds the health
value an earlier `SetHealth` stored and the pending slot was emptied by the first send;
the callback succeeds, and `PrepareFirstMessage` puts the stored agent description into the
pending message and leaves its health field empty, although the synced state holds a
health value. -/
theorem PrepareFirstMessage_leaves_health_out :
    poppedClient.ClientSyncedState.Health = some healthy ∧
    poppedClient.pendingMessage = AgentToServer.empty ∧
    (poppedClient.PrepareFirstMessage 0).1 = .nil ∧
    (poppedClient.PrepareFirstMessage 0).2.ClientSyncedState.Health = some healthy ∧
    (poppedClient.PrepareFirstMessage 0).2.pendingMessage.AgentDescription =
      poppedClient.ClientSyncedState.AgentDescription ∧
    (poppedClient.PrepareFirstMessage 0).2.pendingMessage.AgentDescription =
      some sampleDescription ∧
    (poppedClient.PrepareFirstMessage 0).2.pendingMessage.Health = none := by
  decide

/-- What `PrepareFirstMessage` writes when the effective-config callback succeeds: the
seven fields its closure assigns (lines 214-220); every other field of the pending message
is what it was, and the synced state is not touched. -/
theorem PrepareFirstMessage_populates (c : ClientCommon) (ctx : Context) (callbacks : Callbacks)
    (cfg : Option EffectiveConfig)
    (hcallbacks : c.Callbacks = some callbacks)
    (hcfg : callbacks.GetEffectiveConfig ctx = (cfg, none)) :
    (c.PrepareFirstMessage ctx).1 = .nil ∧
    (c.PrepareFirstMessage ctx).2.ClientSyncedState = c.ClientSyncedState ∧
    (c.PrepareFirstMessage ctx).2.pendingMessage =
      { c.pendingMessage with
        AgentDescription := c.ClientSyncedState.AgentDescription
        EffectiveConfig := cfg
        RemoteConfigStatus := c.ClientSyncedState.RemoteConfigStatus
        PackageStatuses := c.ClientSyncedState.PackageStatuses
        Capabilities := uint64 c.Capabilities
        CustomCapabilities := c.ClientSyncedState.CustomCapabilities
        Flags := c.ClientSyncedState.Flags } ∧
    (c.PrepareFirstMessage ctx).2.pendingMessage.Health = c.pendingMessage.Health := by
  simp [ClientCommon.PrepareFirstMessage, hcallbacks, hcfg, ClientCommon.pendingMessage,
    SenderCommon.UpdateNextMessage, NextMessage.Update]

/-- C6, counterexample: started with `AcceptsPackages` and no provider, a described client
gets the provider-not-set error, and its synced state has changed: the default
remote-config status was committed before the pairing check. -/
theorem PrepareStart_error_after_commit :
    (describedClient.PrepareStart opampDeps (settingsWith 0x8 none)).1 =
      .err .ErrPackagesStateProviderNotSet ∧
    describedClient.ClientSyncedState.RemoteConfigStatus = none ∧
    (describedClient.PrepareStart opampDeps (settingsWith 0x8 none)).2.ClientSyncedState.RemoteConfigStatus =
      some { LastRemoteConfigHash := none, Status := .UNSET, ErrorMessage := "" } ∧
    (describedClient.PrepareStart opampDeps (settingsWith 0x8 none)).2.ClientSyncedState ≠
      describedClient.ClientSyncedState := by
  decide

/-- The part of the client a failing `PrepareStart` keeps: the sender with its pending
message, and the agent description, health, custom capabilities and flags of the synced
state; the whole synced state when one of the first four checks fails, and otherwise the
remote-config status of the settings (or the `UNSET` default) is committed. -/
theorem PrepareStart_error_keeps (D : Deps) (c : ClientCommon) (settings : StartSettings)
    (e : Error) (herr : (c.PrepareStart D settings).1 = .err e) :
    (c.PrepareStart D settings).2.sender = c.sender ∧
    (c.PrepareStart D settings).2.ClientSyncedState.AgentDescription =
      c.ClientSyncedState.AgentDescription ∧
    (c.PrepareStart D settings).2.ClientSyncedState.Health = c.ClientSyncedState.Health ∧
    (c.PrepareStart D settings).2.ClientSyncedState.CustomCapabilities =
      c.ClientSyncedState.CustomCapabilities ∧
    (c.PrepareStart D settings).2.ClientSyncedState.Flags = c.ClientSyncedState.Flags ∧
    (failsEarly D c settings →
      (c.PrepareStart D settings).2.ClientSyncedState = c.ClientSyncedState) ∧
    (¬ failsEarly D c settings →
      (c.PrepareStart D settings).2.ClientSyncedState.RemoteConfigStatus =
        settings.fillRemoteConfigStatus.RemoteConfigStatus) := by
  revert herr
  simp only [failsEarly, ClientSyncedState.AgentDescription, ClientSyncedState.Health,
    ClientSyncedState.CustomCapabilities, ClientSyncedState.Flags,
    ClientSyncedState.RemoteConfigStatus]
  cases hs : c.isStarted
  swap
  · simp [ClientCommon.PrepareStart, hs]
  by_cases hd : c.ClientSyncedState.agentDescription = none
  · simp [ClientCommon.PrepareStart, hs, hd, ClientSyncedState.AgentDescription]
  by_cases hh : Int.land (Int.lor settings.Capabilities D.ReportsStatus) D.ReportsHealth ≠ 0 ∧
      c.ClientSyncedState.health = none
  · simp [ClientCommon.PrepareStart, hs, hd, hh, ClientSyncedState.AgentDescription,
      ClientSyncedState.Health]
  rcases hr : D.shapeRemoteConfigStatus settings.fillRemoteConfigStatus.RemoteConfigStatus
    with _ | er
  swap
  · simp only [StartSettings.fillRemoteConfigStatus] at hr
    simp [ClientCommon.PrepareStart, hs, hd, hh, ClientSyncedState.AgentDescription,
      ClientSyncedState.Health, ClientSyncedState.SetRemoteConfigStatus,
      StartSettings.fillRemoteConfigStatus, hr]
  simp only [StartSettings.fillRemoteConfigStatus] at hr
  have hh2 : Int.land (Int.lor settings.Capabilities D.ReportsStatus) D.ReportsHealth = 0 ∨
      ¬ c.ClientSyncedState.health = none := by
    by_cases h0 : Int.land (Int.lor settings.Capabilities D.ReportsStatus) D.ReportsHealth = 0
    · exact Or.inl h0
    · exact Or.inr (fun h => hh ⟨h0, h⟩)
  rcases hp : settings.PackagesStateProvider with _ | provider
  · by_cases ha :
      Int.land (Int.lor settings.Capabilities D.ReportsStatus) D.AcceptsPackages = 0 <;>
    by_cases hb :
      Int.land (Int.lor settings.Capabilities D.ReportsStatus) D.ReportsPackageStatuses = 0 <;>
    rcases hps : D.shapePackageStatuses
        (some { Packages := [], ServerProvidedAllPackagesHash := none, ErrorMessage := "" })
      with _ | e1 <;>
    rcases hu : D.shapeInstanceUid settings.InstanceUid with _ | e2 <;>
    simp [ClientCommon.PrepareStart, hs, hd, hh, ClientSyncedState.AgentDescription,
      ClientSyncedState.Health, ClientSyncedState.SetRemoteConfigStatus,
      ClientSyncedState.SetPackageStatuses, SenderCommon.SetInstanceUid,
      StartSettings.fillRemoteConfigStatus, hr, hp, ha, hb, hps, hu, hh2]
  · rcases hl : provider.LastReportedStatuses with ⟨_ | st, _ | perr⟩
    · rcases hps : D.shapePackageStatuses
          (some { Packages := [], ServerProvidedAllPackagesHash := none, ErrorMessage := "" })
        with _ | e1 <;>
      by_cases ha :
        Int.land (Int.lor settings.Capabilities D.ReportsStatus) D.AcceptsPackages = 0 <;>
      by_cases hb :
        Int.land (Int.lor settings.Capabilities D.ReportsStatus) D.ReportsPackageStatuses = 0 <;>
      rcases hu : D.shapeInstanceUid settings.InstanceUid with _ | e2 <;>
      simp [ClientCommon.PrepareStart, hs, hd, hh, ClientSyncedState.AgentDescription,
        ClientSyncedState.Health, ClientSyncedState.SetRemoteConfigStatus,
        ClientSyncedState.SetPackageStatuses, SenderCommon.SetInstanceUid,
        StartSettings.fillRemoteConfigStatus, hr, hp, ha, hb, hl, hu, hh2, hps]
    · by_cases ha :
        Int.land (Int.lor settings.Capabilities D.ReportsStatus) D.AcceptsPackages = 0 <;>
      by_cases hb :
        Int.land (Int.lor settings.Capabilities D.ReportsStatus) D.ReportsPackageStatuses = 0 <;>
      rcases hu : D.shapeInstanceUid settings.InstanceUid with _ | e2 <;>
      simp [ClientCommon.PrepareStart, hs, hd, hh, ClientSyncedState.AgentDescription,
        ClientSyncedState.Health, ClientSyncedState.SetRemoteConfigStatus,
        ClientSyncedState.SetPackageStatuses, SenderCommon.SetInstanceUid,
        StartSettings.fillRemoteConfigStatus, hr, hp, ha, hb, hl, hu, hh2]
    · rcases hps : D.shapePackageStatuses (some st) with _ | e1 <;>
      by_cases ha :
        Int.land (Int.lor settings.Capabilities D.ReportsStatus) D.AcceptsPackages = 0 <;>
      by_cases hb :
        Int.land (Int.lor settings.Capabilities D.ReportsStatus) D.ReportsPackageStatuses = 0 <;>
      rcases hu : D.shapeInstanceUid settings.InstanceUid with _ | e2 <;>
      simp [ClientCommon.PrepareStart, hs, hd, hh, ClientSyncedState.AgentDescription,
        ClientSyncedState.Health, ClientSyncedState.SetRemoteConfigStatus,
        ClientSyncedState.SetPackageStatuses, SenderCommon.SetInstanceUid,
        StartSettings.fillRemoteConfigStatus, hr, hp, ha, hb, hl, hu, hh2, hps]
    · by_cases ha :
        Int.land (Int.lor settings.Capabilities D.ReportsStatus) D.AcceptsPackages = 0 <;>
      by_cases hb :
        Int.land (Int.lor settings.Capabilities D.ReportsStatus) D.ReportsPackageStatuses = 0 <;>
      rcases hu : D.shapeInstanceUid settings.InstanceUid with _ | e2 <;>
      simp [ClientCommon.PrepareStart, hs, hd, hh, ClientSyncedState.AgentDescription,
        ClientSyncedState.Health, ClientSyncedState.SetRemoteConfigStatus,
        ClientSyncedState.SetPackageStatuses, SenderCommon.SetInstanceUid,
        StartSettings.fillRemoteConfigStatus, hr, hp, ha, hb, hl, hu, hh2]

/-- Two stores with the same six fields are the same store. -/
theorem ClientSyncedState.eq_of_fields (a b : ClientSyncedState)
    (h1 : a.agentDescription = b.agentDescription) (h2 : a.health = b.health)
    (h3 : a.remoteConfigStatus = b.remoteConfigStatus)
    (h4 : a.packageStatuses = b.packageStatuses)
    (h5 : a.customCapabilities = b.customCapabilities) (h6 : a.flags = b.flags) : a = b := by
  cases a; cases b; simp_all

/-- C6, amended. Whenever `PrepareStart` returns an error, the sender with its pending
message is what it was, and so are the agent description, health, custom capabilities and
flags of the synced state.  When the error comes from one of the first four checks the
whole synced state is unchanged.  A later error is returned with the remote-config status
of the settings (or the `UNSET` default) committed, and with nothing else changed when the
error is a pairing error, a provider error or a rejection of the package statuses by the
store; only when the error is the rejection of the instance uid by the sender have the
prepared package statuses been committed as well.  So the package statuses are what they
were on every error except a rejected instance uid. -/
theorem PrepareStart_error_frame (D : Deps) (c : ClientCommon) (settings : StartSettings)
    (e : Error) (herr : (c.PrepareStart D settings).1 = .err e) :
    (c.PrepareStart D settings).2.sender = c.sender ∧
    (c.PrepareStart D settings).2.ClientSyncedState.AgentDescription =
      c.ClientSyncedState.AgentDescription ∧
    (c.PrepareStart D settings).2.ClientSyncedState.Health = c.ClientSyncedState.Health ∧
    (c.PrepareStart D settings).2.ClientSyncedState.CustomCapabilities =
      c.ClientSyncedState.CustomCapabilities ∧
    (c.PrepareStart D settings).2.ClientSyncedState.Flags = c.ClientSyncedState.Flags ∧
    (failsEarly D c settings →
      (c.PrepareStart D settings).2.ClientSyncedState = c.ClientSyncedState) ∧
    (¬ failsEarly D c settings →
      (c.PrepareStart D settings).2.ClientSyncedState.RemoteConfigStatus =
        settings.fillRemoteConfigStatus.RemoteConfigStatus) ∧
    (¬ failsEarly D c settings → ¬ reachesInstanceUid D settings →
      (c.PrepareStart D settings).2.ClientSyncedState =
        { c.ClientSyncedState with
          remoteConfigStatus := settings.fillRemoteConfigStatus.RemoteConfigStatus }) ∧
    (¬ failsEarly D c settings → reachesInstanceUid D settings →
      D.shapeInstanceUid settings.InstanceUid = some e ∧
      (c.PrepareStart D settings).2.ClientSyncedState =
        { c.ClientSyncedState with
          remoteConfigStatus := settings.fillRemoteConfigStatus.RemoteConfigStatus
          packageStatuses := preparedPackageStatuses settings }) ∧
    ((failsEarly D c settings ∨ ¬ reachesInstanceUid D settings) →
      (c.PrepareStart D settings).2.ClientSyncedState.PackageStatuses =
        c.ClientSyncedState.PackageStatuses) := by
  have keeps := PrepareStart_error_keeps D c settings e herr
  obtain ⟨k1, k2, k3, k4, k5, k6, k7⟩ := keeps
  have late : ¬ failsEarly D c settings →
      (c.PrepareStart D settings).1 =
        (match laterError D settings with
          | some e => .err e
          | none => .nil) ∧
      (reachesInstanceUid D settings →
        (c.PrepareStart D settings).2.ClientSyncedState.packageStatuses =
          preparedPackageStatuses settings) ∧
      (¬ reachesInstanceUid D settings →
        (c.PrepareStart D settings).2.ClientSyncedState.packageStatuses =
          c.ClientSyncedState.packageStatuses) := by
    intro hf
    simp only [failsEarly, not_or, ClientSyncedState.AgentDescription,
      ClientSyncedState.Health] at hf
    exact PrepareStart_late D c settings (by simpa using hf.1) hf.2.1 hf.2.2.1
  simp only [ClientSyncedState.AgentDescription, ClientSyncedState.Health,
    ClientSyncedState.CustomCapabilities, ClientSyncedState.Flags,
    ClientSyncedState.RemoteConfigStatus, ClientSyncedState.PackageStatuses] at k2 k3 k4 k5 k7 ⊢
  refine ⟨k1, k2, k3, k4, k5, k6, k7, ?_, ?_, ?_⟩
  · intro hf hr
    exact ClientSyncedState.eq_of_fields _ _ k2 k3 (k7 hf) ((late hf).2.2 hr) k4 k5
  · intro hf hr
    refine ⟨?_, ClientSyncedState.eq_of_fields _ _ k2 k3 (k7 hf) ((late hf).2.1 hr) k4 k5⟩
    have h1 := (late hf).1
    obtain ⟨r1, r2, r3, r4⟩ := hr
    rw [herr] at h1
    simp only [laterError, r1, r2, r3, r4] at h1
    rcases hu : D.shapeInstanceUid settings.InstanceUid with _ | e2
    · rw [hu] at h1; simp at h1
    · rw [hu] at h1; simp at h1; rw [h1]
  · rintro (hf | hr)
    · rw [k6 hf]
    · by_cases hf : failsEarly D c settings
      · rw [k6 hf]
      · exact (late hf).2.2 hr

/-- C6, amended, at concrete inputs: the failing start of the counterexample leaves the
sender as it was and changes nothing of the store but the remote-config status; a start
whose instance uid the sender rejects returns with the remote-config status and the
prepared package statuses committed. -/
theorem PrepareStart_error_frame_witness :
    (describedClient.PrepareStart opampDeps (settingsWith 0x8 none)).2.sender =
      describedClient.sender ∧
    (describedClient.PrepareStart opampDeps (settingsWith 0x8 none)).2.ClientSyncedState =
      { describedClient.ClientSyncedState with
        remoteConfigStatus := (settingsWith 0x8 none).fillRemoteConfigStatus.RemoteConfigStatus } ∧
    (describedClient.PrepareStart strictUidDeps unnamedSettings).1 =
      .err (.collaborator "empty instance uid") ∧
    describedClient.ClientSyncedState.packageStatuses = none ∧
    (describedClient.PrepareStart strictUidDeps unnamedSettings).2.ClientSyncedState =
      { describedClient.ClientSyncedState with
        remoteConfigStatus := unnamedSettings.fillRemoteConfigStatus.RemoteConfigStatus
        packageStatuses :=
          some { Packages := [], ServerProvidedAllPackagesHash := none, ErrorMessage := "" } } :=
  ⟨(PrepareStart_error_frame opampDeps describedClient (settingsWith 0x8 none)
      .ErrPackagesStateProviderNotSet (by decide)).1,
    (PrepareStart_error_frame opampDeps describedClient (settingsWith 0x8 none)
      .ErrPackagesStateProviderNotSet (by decide)).2.2.2.2.2.2.2.1 (by decide) (by decide),
    by decide, by decide,
    ((PrepareStart_error_frame strictUidDeps describedClient unnamedSettings
      (.collaborator "empty instance uid") (by decide)).2.2.2.2.2.2.2.2.1
        (by decide) (by decide)).2⟩

/-- Bitwise or of a mask with itself is the mask. -/
theorem lor_same (x : Int) : Int.lor x x = x := by
  cases x <;> simp [Int.lor]

/-- C9, counterexample: a described client without health, started with `ReportsStatus`
alone, no remote-config status and no provider: `PrepareStart` succeeds, and the stored
remote-config status has status `UNSET` and a null hash. -/
theorem PrepareStart_default_status_has_null_hash :
    (describedClient.PrepareStart opampDeps (settingsWith 0x1 none)).1 = .nil ∧
    (describedClient.PrepareStart opampDeps (settingsWith 0x1 none)).2.ClientSyncedState.RemoteConfigStatus =
      some { LastRemoteConfigHash := none, Status := .UNSET, ErrorMessage := "" } ∧
    ¬ ∃ status hash,
      (describedClient.PrepareStart opampDeps
        (settingsWith 0x1 none)).2.ClientSyncedState.RemoteConfigStatus = some status ∧
      status.LastRemoteConfigHash = some hash := by
  refine ⟨by decide, by decide, ?_⟩
  rintro ⟨status, hash, h1, h2⟩
  have h : (describedClient.PrepareStart opampDeps
      (settingsWith 0x1 none)).2.ClientSyncedState.RemoteConfigStatus =
      some { LastRemoteConfigHash := none, Status := .UNSET, ErrorMessage := "" } := by decide
  rw [h] at h1
  injection h1 with h1
  subst h1
  simp at h2

/-- C9, amended. On a not-started client with an agent description, with or without a
health value, with
settings whose capabilities are `ReportsStatus` only (a mask that has none of the
`ReportsHealth`, `AcceptsPackages` and `ReportsPackageStatuses` bits), without remote-config
status and without provider, and when the store accepts the two default values and the
sender the instance identifier: `PrepareStart` succeeds, the stored remote-config status
has status `UNSET` and a null hash, and the stored package statuses are the empty value. -/
theorem PrepareStart_defaults (D : Deps) (c : ClientCommon) (settings : StartSettings)
    (hstart : c.isStarted = false)
    (hdescr : c.ClientSyncedState.AgentDescription ≠ none)
    (hcaps : settings.Capabilities = D.ReportsStatus)
    (hhealthBit : Int.land D.ReportsStatus D.ReportsHealth = 0)
    (hacceptsBit : Int.land D.ReportsStatus D.AcceptsPackages = 0)
    (hstatusesBit : Int.land D.ReportsStatus D.ReportsPackageStatuses = 0)
    (hstatus : settings.RemoteConfigStatus = none)
    (hprovider : settings.PackagesStateProvider = none)
    (hacceptStatus : D.shapeRemoteConfigStatus
      (some { LastRemoteConfigHash := none, Status := .UNSET, ErrorMessage := "" }) = none)
    (hacceptStatuses : D.shapePackageStatuses
      (some { Packages := [], ServerProvidedAllPackagesHash := none, ErrorMessage := "" }) = none)
    (hacceptUid : D.shapeInstanceUid settings.InstanceUid = none) :
    (c.PrepareStart D settings).1 = .nil ∧
    (c.PrepareStart D settings).2.ClientSyncedState.RemoteConfigStatus =
      some { LastRemoteConfigHash := none, Status := .UNSET, ErrorMessage := "" } ∧
    (c.PrepareStart D settings).2.ClientSyncedState.PackageStatuses =
      some { Packages := [], ServerProvidedAllPackagesHash := none, ErrorMessage := "" } := by
  simp [ClientCommon.PrepareStart, hstart, hdescr, hcaps, lor_same, hhealthBit, hacceptsBit,
    hstatusesBit, hstatus, hprovider, hacceptStatus, hacceptStatuses, hacceptUid,
    ClientSyncedState.SetRemoteConfigStatus, ClientSyncedState.SetPackageStatuses,
    SenderCommon.SetInstanceUid, StartSettings.fillRemoteConfigStatus,
    ClientSyncedState.RemoteConfigStatus, ClientSyncedState.PackageStatuses]

/-- C9, amended, at a concrete input. -/
theorem PrepareStart_defaults_witness :
    (describedClient.PrepareStart opampDeps (settingsWith 0x1 none)).2.ClientSyncedState.PackageStatuses =
      some { Packages := [], ServerProvidedAllPackagesHash := none, ErrorMessage := "" } :=
  (PrepareStart_defaults opampDeps describedClient (settingsWith 0x1 none)
    (by decide) (by decide) (by rfl) (by decide) (by decide) (by decide) (by rfl) (by rfl)
    (by rfl) (by rfl) (by rfl)).2.2

/-- A reporting call leaves the installed callbacks as they are. -/
theorem call_callbacks (D : Deps) (c : ClientCommon) (call : ReportingCall) :
    (c.call D call).2.Callbacks = c.Callbacks := by
  cases call <;> simp only [ClientCommon.call]
  · simp only [ClientCommon.SetAgentDescription]; split <;> rfl
  · simp only [ClientCommon.SetHealth]; split <;> rfl
  · simp only [ClientCommon.SetRemoteConfigStatus]
    repeat' split
    all_goals rfl
  · simp only [ClientCommon.SetPackageStatuses]
    repeat' split
    all_goals rfl
  · simp only [ClientCommon.SetCustomCapabilities]; split <;> rfl
  · rfl
  · simp only [ClientCommon.UpdateEffectiveConfig]
    repeat' split
    all_goals rfl
  · rfl

/-- A successful reporting call puts the value it reports into its field of the pending
message, leaves the other fields as they are, and marks the message pending. -/
theorem call_merges (D : Deps) (c : ClientCommon) (call : ReportingCall)
    (h : c.succeeds D call) (f : Field) :
    (c.call D call).2.pendingMessage.get f =
      (if call.field = f then call.value c.Callbacks else c.pendingMessage.get f) ∧
    (c.call D call).2.sender.nextMessage.messagePending = true := by
  obtain ⟨hnil, hchanged⟩ := h
  cases call with
  | SetAgentDescription descr =>
    simp only [ClientCommon.call, ClientCommon.SetAgentDescription,
      ClientSyncedState.SetAgentDescription] at hnil ⊢
    rcases hs : D.shapeAgentDescription descr with _ | e
    · cases f <;>
      simp [hs, ClientCommon.pendingMessage, SenderCommon.UpdateNextMessage,
        SenderCommon.ScheduleSend, NextMessage.Update, AgentToServer.get, ReportingCall.field,
        ReportingCall.value, ClientSyncedState.AgentDescription]
    · simp [hs] at hnil
  | SetHealth health =>
    simp only [ClientCommon.call, ClientCommon.SetHealth, ClientSyncedState.SetHealth] at hnil ⊢
    rcases hs : D.shapeHealth health with _ | e
    · cases f <;>
      simp [hs, ClientCommon.pendingMessage, SenderCommon.UpdateNextMessage,
        SenderCommon.ScheduleSend, NextMessage.Update, AgentToServer.get, ReportingCall.field,
        ReportingCall.value, ClientSyncedState.Health]
    · simp [hs] at hnil
  | SetRemoteConfigStatus status =>
    simp only [ClientCommon.succeeds, ClientSyncedState.RemoteConfigStatus] at hchanged
    simp only [ClientCommon.call, ClientCommon.SetRemoteConfigStatus,
      ClientSyncedState.SetRemoteConfigStatus] at hnil ⊢
    by_cases hcap : Int.land c.Capabilities D.ReportsRemoteConfig = 0
    · simp [hcap] at hnil
    · rcases status with _ | given
      · simp [hcap] at hnil
      · by_cases hhash : given.LastRemoteConfigHash = none
        · simp [hcap, hhash] at hnil
        · rcases hs : D.shapeRemoteConfigStatus (some given) with _ | e
          · cases f <;>
            simp [hcap, hhash, hs, hchanged, ClientCommon.pendingMessage,
              SenderCommon.UpdateNextMessage, SenderCommon.ScheduleSend, NextMessage.Update,
              AgentToServer.get, ReportingCall.field, ReportingCall.value,
              ClientSyncedState.RemoteConfigStatus]
          · simp [hcap, hhash, hs] at hnil
  | SetPackageStatuses statuses =>
    simp only [ClientCommon.succeeds, ClientSyncedState.PackageStatuses] at hchanged
    simp only [ClientCommon.call, ClientCommon.SetPackageStatuses,
      ClientSyncedState.SetPackageStatuses] at hnil ⊢
    by_cases hcap : Int.land c.Capabilities D.ReportsPackageStatuses = 0
    · simp [hcap] at hnil
    · rcases statuses with _ | given
      · simp [hcap] at hnil
      · by_cases hhash : given.ServerProvidedAllPackagesHash = none
        · simp [hcap, hhash] at hnil
        · rcases hs : D.shapePackageStatuses (some given) with _ | e
          · cases f <;>
            simp [hcap, hhash, hs, hchanged, ClientCommon.pendingMessage,
              SenderCommon.UpdateNextMessage, SenderCommon.ScheduleSend, NextMessage.Update,
              AgentToServer.get, ReportingCall.field, ReportingCall.value,
              ClientSyncedState.PackageStatuses]
          · simp [hcap, hhash, hs] at hnil
  | SetCustomCapabilities customCapabilities =>
    simp only [ClientCommon.call, ClientCommon.SetCustomCapabilities,
      ClientSyncedState.SetCustomCapabilities] at hnil ⊢
    rcases hs : D.shapeCustomCapabilities customCapabilities with _ | e
    · cases f <;>
      simp [hs, ClientCommon.pendingMessage, SenderCommon.UpdateNextMessage,
        SenderCommon.ScheduleSend, NextMessage.Update, AgentToServer.get, ReportingCall.field,
        ReportingCall.value, ClientSyncedState.CustomCapabilities]
    · simp [hs] at hnil
  | SetFlags flags =>
    cases f <;>
    simp [ClientCommon.call, ClientCommon.SetFlags, ClientCommon.pendingMessage,
      SenderCommon.UpdateNextMessage, SenderCommon.ScheduleSend, NextMessage.Update,
      AgentToServer.get, ReportingCall.field, ReportingCall.value]
  | UpdateEffectiveConfig ctx =>
    simp only [ClientCommon.call, ClientCommon.UpdateEffectiveConfig] at hnil ⊢
    by_cases hcap : Int.land c.Capabilities D.ReportsEffectiveConfig = 0
    · simp [hcap] at hnil
    · rcases hcb : c.Callbacks with _ | installed
      · simp [hcap, hcb] at hnil
      · rcases hcfg : installed.GetEffectiveConfig ctx with ⟨cfg, _ | e⟩
        · cases f <;>
          simp [hcap, hcb, hcfg, ClientCommon.pendingMessage, SenderCommon.UpdateNextMessage,
            SenderCommon.ScheduleSend, NextMessage.Update, AgentToServer.get,
            ReportingCall.field, ReportingCall.value]
        · simp [hcap, hcb, hcfg] at hnil
  | RequestConnectionSettings request =>
    cases f <;>
    simp [ClientCommon.call, ClientCommon.RequestConnectionSettings,
      ClientCommon.pendingMessage, SenderCommon.UpdateNextMessage, SenderCommon.ScheduleSend,
      NextMessage.Update, AgentToServer.get, ReportingCall.field, ReportingCall.value]

/-- After a sequence of successful reporting calls each field of the pending message holds
the value reported by the last call about it, or what it held before. -/
theorem calls_fields (D : Deps) (calls : List ReportingCall) :
    ∀ c : ClientCommon, c.allSucceed D calls → ∀ f,
      (c.calls D calls).pendingMessage.get f =
        (lastReported c.Callbacks f calls).getD (c.pendingMessage.get f) := by
  induction calls with
  | nil => intro c _ f; rfl
  | cons call rest ih =>
    intro c h f
    obtain ⟨h1, h2⟩ := h
    have step := (call_merges D c call h1 f).1
    have rec := ih (c.call D call).2 h2 f
    rw [call_callbacks] at rec
    simp only [ClientCommon.calls, lastReported]
    rw [rec]
    cases lastReported c.Callbacks f rest with
    | some v => rfl
    | none =>
      simp only [Option.getD_none, step]
      split <;> rfl

/-- After a nonempty sequence of successful reporting calls the message is marked
pending. -/
theorem calls_pending (D : Deps) (calls : List ReportingCall) :
    ∀ c : ClientCommon, c.allSucceed D calls → calls ≠ [] →
      (c.calls D calls).sender.nextMessage.messagePending = true := by
  induction calls with
  | nil => intro c _ h; exact absurd rfl h
  | cons call rest ih =>
    intro c h _
    obtain ⟨h1, h2⟩ := h
    cases rest with
    | nil => exact (call_merges D c call h1 .Flags).2
    | cons next more => exact ih (c.call D call).2 h2 (by simp)

/-- No call about a field: nothing reported for it. -/
theorem lastReported_none (callbacks : Option Callbacks) (f : Field)
    (calls : List ReportingCall) (h : ∀ call ∈ calls, call.field ≠ f) :
    lastReported callbacks f calls = none := by
  induction calls with
  | nil => rfl
  | cons call rest ih =>
    simp only [lastReported]
    rw [ih (fun x hx => h x (List.mem_cons_of_mem _ hx))]
    simp [h call (List.mem_cons_self _ _)]

/-- When the calls are about pairwise distinct fields, each of them is the last about its
field. -/
theorem lastReported_nodup (callbacks : Option Callbacks) (calls : List ReportingCall)
    (hnodup : (calls.map ReportingCall.field).Nodup) :
    ∀ call ∈ calls, lastReported callbacks call.field calls = some (call.value callbacks) := by
  induction calls with
  | nil => intro call h; simp at h
  | cons first rest ih =>
    intro call hmem
    simp only [List.map_cons, List.nodup_cons, List.mem_map, not_exists, not_and] at hnodup
    obtain ⟨hfirst, hrest⟩ := hnodup
    simp only [lastReported]
    rcases List.mem_cons.mp hmem with rfl | hin
    · rw [lastReported_none callbacks call.field rest (fun x hx => hfirst x hx)]
      simp
    · rw [ih hrest call hin]

/-- The last call of a sequence is the last about its field. -/
theorem lastReported_append (callbacks : Option Callbacks) (last : ReportingCall)
    (init : List ReportingCall) :
    lastReported callbacks last.field (init ++ [last]) = some (last.value callbacks) := by
  induction init with
  | nil => simp [lastReported]
  | cons first rest ih => simp [lastReported, ih]

/-- C7. After any sequence of successful reporting calls with no pop in between, each
field of the pending message holds the value reported by the last call about that field,
and what it held before when no call is about it.  So calls about pairwise distinct
fields leave every reported value in the message, of several calls about one field the
last one wins, and a pop then returns this one message. -/
theorem reporting_calls_coalesce (D : Deps) (c : ClientCommon) (calls : List ReportingCall)
    (h : c.allSucceed D calls) :
    (∀ f, (c.calls D calls).pendingMessage.get f =
      (lastReported c.Callbacks f calls).getD (c.pendingMessage.get f)) ∧
    ((calls.map ReportingCall.field).Nodup → ∀ call ∈ calls,
      (c.calls D calls).pendingMessage.get call.field = call.value c.Callbacks) ∧
    (∀ init last, calls = init ++ [last] →
      (c.calls D calls).pendingMessage.get last.field = last.value c.Callbacks) ∧
    (calls ≠ [] →
      (c.calls D calls).sender.nextMessage.PopPending.1 =
        some (c.calls D calls).pendingMessage) := by
  refine ⟨calls_fields D calls c h, ?_, ?_, ?_⟩
  · intro hnodup call hmem
    rw [calls_fields D calls c h, lastReported_nodup c.Callbacks calls hnodup call hmem]
    rfl
  · intro init last hcalls
    rw [calls_fields D calls c h, hcalls, lastReported_append]
    rfl
  · intro hne
    simp [NextMessage.PopPending, calls_pending D calls c h hne, ClientCommon.pendingMessage]

/-- C7, at a concrete input: health, flags, a changed remote-config status and flags
again, on a client prepared with the reporting capabilities. -/
theorem reporting_calls_coalesce_witness :
    (reportingClient.calls opampDeps sampleCalls).pendingMessage.get .Flags = .number 2 ∧
    (reportingClient.calls opampDeps sampleCalls).pendingMessage.get .Health =
      .health (some healthy) :=
  have h : reportingClient.allSucceed opampDeps sampleCalls := by decide
  ⟨by
    rw [(reporting_calls_coalesce opampDeps reportingClient sampleCalls h).1 .Flags]
    decide,
   by
    rw [(reporting_calls_coalesce opampDeps reportingClient sampleCalls h).1 .Health]
    decide⟩

/-- A reporting call leaves the started flag as it is. -/
theorem call_isStarted (D : Deps) (c : ClientCommon) (call : ReportingCall) :
    (c.call D call).2.isStarted = c.isStarted := by
  cases call <;> simp only [ClientCommon.call]
  · simp only [ClientCommon.SetAgentDescription]; split <;> rfl
  · simp only [ClientCommon.SetHealth]; split <;> rfl
  · simp only [ClientCommon.SetRemoteConfigStatus]
    repeat' split
    all_goals rfl
  · simp only [ClientCommon.SetPackageStatuses]
    repeat' split
    all_goals rfl
  · simp only [ClientCommon.SetCustomCapabilities]; split <;> rfl
  · rfl
  · simp only [ClientCommon.UpdateEffectiveConfig]
    repeat' split
    all_goals rfl
  · rfl

/-- No operation resets the started flag. -/
theorem apply_keeps_started (D : Deps) (state : ClientCommon × Runtime) (op : Operation)
    (h : state.1.isStarted = true) : (ClientCommon.apply D state op).1.isStarted = true := by
  cases op with
  | PrepareStart settings => simp [ClientCommon.apply, ClientCommon.PrepareStart, h]
  | StartConnectAndRun runner =>
    simp only [ClientCommon.apply, ClientCommon.StartConnectAndRun]
    split
    · exact h
    · rfl
  | Stop waited =>
    simp only [ClientCommon.apply, ClientCommon.Stop, h]
    repeat' split
    all_goals first | exact h | simp_all
  | PrepareFirstMessage ctx =>
    simp only [ClientCommon.apply, ClientCommon.PrepareFirstMessage]
    repeat' split
    all_goals exact h
  | Report call => simp only [ClientCommon.apply, call_isStarted, h]
  | SendCustomMessage message =>
    simp only [ClientCommon.apply, ClientCommon.SendCustomMessage]
    repeat' split
    all_goals exact h

/-- No sequence of operations resets the started flag. -/
theorem applyAll_keeps_started (D : Deps) (ops : List Operation) :
    ∀ state : ClientCommon × Runtime, state.1.isStarted = true →
      (ClientCommon.applyAll D state ops).1.isStarted = true := by
  induction ops with
  | nil => intro state h; exact h
  | cons op rest ih =>
    intro state h
    exact ih (ClientCommon.apply D state op) (apply_keeps_started D state op h)

/-- The method `PrepareStart` leaves the stopping flag as it is. -/
theorem PrepareStart_isStoppingFlag (D : Deps) (c : ClientCommon) (settings : StartSettings) :
    (c.PrepareStart D settings).2.isStoppingFlag = c.isStoppingFlag := by
  simp only [ClientCommon.PrepareStart]
  repeat' split
  all_goals rfl

/-- On a started client `PrepareStart` returns the already-started error and changes
nothing. -/
theorem PrepareStart_started (D : Deps) (c : ClientCommon) (settings : StartSettings)
    (h : c.isStarted = true) : c.PrepareStart D settings = (.err .errAlreadyStarted, c) := by
  simp [ClientCommon.PrepareStart, h]

/-- C8. On a client whose stopping flag is not set, once `PrepareStart` has succeeded and
`StartConnectAndRun` was called, the client is marked started; after any further
operations, `Stop` among them, the started flag is still set, and `PrepareStart` with any
settings returns the already-started error. -/
theorem started_once_and_for_all (D : Deps) (c : ClientCommon) (rt : Runtime)
    (settings : StartSettings) (runner : Nat)
    (hstopping : c.isStoppingFlag = false)
    (_hprepared : (c.PrepareStart D settings).1 = .nil) :
    ((c.PrepareStart D settings).2.StartConnectAndRun rt runner).1.isStarted = true ∧
    ∀ (ops : List Operation) (later : StartSettings),
      (ClientCommon.applyAll D
        ((c.PrepareStart D settings).2.StartConnectAndRun rt runner) ops).1.isStarted = true ∧
      ((ClientCommon.applyAll D
        ((c.PrepareStart D settings).2.StartConnectAndRun rt runner) ops).1.PrepareStart D
          later).1 = .err .errAlreadyStarted := by
  have hstarted :
      ((c.PrepareStart D settings).2.StartConnectAndRun rt runner).1.isStarted = true := by
    simp [ClientCommon.StartConnectAndRun, PrepareStart_isStoppingFlag, hstopping]
  refine ⟨hstarted, fun ops later => ?_⟩
  have hkept := applyAll_keeps_started D ops _ hstarted
  exact ⟨hkept, by rw [PrepareStart_started D _ later hkept]⟩

/-- C8, at a concrete input: a described client is prepared and started, then stopped,
and prepared again. -/
theorem started_once_witness :
    ((ClientCommon.applyAll opampDeps
      ((describedClient.PrepareStart opampDeps (settingsWith 0x1 none)).2.StartConnectAndRun
        freshRuntime 0) [.Stop none]).1.PrepareStart opampDeps (settingsWith 0x1 none)).1 =
      .err .errAlreadyStarted :=
  ((started_once_and_for_all opampDeps describedClient freshRuntime (settingsWith 0x1 none) 0
    (by decide) (by decide)).2 [.Stop none] (settingsWith 0x1 none)).2

/-- C11. When the stopping flag is set, `StartConnectAndRun` returns (it has no error
result) with the client as it was, so that the started flag, the stored cancellation
handle and the stopping flag are unchanged; no runner is launched, and the context it has
just created is cancelled. -/
theorem StartConnectAndRun_after_stop_request (c : ClientCommon) (rt : Runtime) (runner : Nat)
    (hstopping : c.isStoppingFlag = true) :
    (c.StartConnectAndRun rt runner).1 = c ∧
    (c.StartConnectAndRun rt runner).1.isStarted = c.isStarted ∧
    (c.StartConnectAndRun rt runner).1.runCancel = c.runCancel ∧
    (c.StartConnectAndRun rt runner).1.isStoppingFlag = c.isStoppingFlag ∧
    (c.StartConnectAndRun rt runner).2.runners = rt.runners ∧
    (c.StartConnectAndRun rt runner).2.contexts = rt.contexts + 1 ∧
    (c.StartConnectAndRun rt runner).2.cancelled = rt.contexts :: rt.cancelled := by
  simp [ClientCommon.StartConnectAndRun, hstopping]

/-- C11, at a concrete input: a second start after the stop of a started client. -/
theorem StartConnectAndRun_after_stop_witness :
    (stoppedClient.1.StartConnectAndRun stoppedClient.2 7).1.runCancel = some 0 ∧
    (stoppedClient.1.StartConnectAndRun stoppedClient.2 7).2.runners = [(0, 0)] ∧
    (stoppedClient.1.StartConnectAndRun stoppedClient.2 7).2.cancelled = [1, 0] :=
  ⟨by
    rw [(StartConnectAndRun_after_stop_request stoppedClient.1 stoppedClient.2 7
      (by decide)).2.2.1]
    decide,
   by
    rw [(StartConnectAndRun_after_stop_request stoppedClient.1 stoppedClient.2 7
      (by decide)).2.2.2.2.1]
    decide,
   by
    rw [(StartConnectAndRun_after_stop_request stoppedClient.1 stoppedClient.2 7
      (by decide)).2.2.2.2.2.2]
    decide⟩

/-- C13. `SendCustomMessage` rejects a nil message with the message-missing error, and a
message whose capability is not in the current custom-capabilities set with the
capability-not-supported error; in both cases no handle is returned and the client is
left as it was: synced state, pending message and send schedule included. -/
theorem SendCustomMessage_rejects_without_change (c : ClientCommon) :
    c.SendCustomMessage none = ((none, .err .ErrCustomMessageMissing), c) ∧
    ∀ message : CustomMessage,
      c.ClientSyncedState.HasCustomCapability message.Capability = false →
      c.SendCustomMessage (some message) =
        ((none, .err .ErrCustomCapabilityNotSupported), c) := by
  refine ⟨rfl, fun message h => ?_⟩
  simp [ClientCommon.SendCustomMessage, h]

/-- C13, at a concrete input: a client that advertises no custom capability. -/
theorem SendCustomMessage_rejects_witness :
    describedClient.SendCustomMessage (some firstMessage) =
      ((none, .err .ErrCustomCapabilityNotSupported), describedClient) :=
  (SendCustomMessage_rejects_without_change describedClient).2 firstMessage (by decide)

/-- C14. When `PrepareStart` succeeds, the capabilities of the client are the bitwise or
of the capabilities of the settings with the `ReportsStatus` mask: bit by bit, a bit is
set afterwards exactly when the settings have it or it is a bit of `ReportsStatus`. -/
theorem PrepareStart_effective_capabilities (D : Deps) (c : ClientCommon)
    (settings : StartSettings) (hok : (c.PrepareStart D settings).1 = .nil) :
    (c.PrepareStart D settings).2.Capabilities =
      Int.lor settings.Capabilities D.ReportsStatus ∧
    (∀ k, (c.PrepareStart D settings).2.Capabilities.testBit k =
      (settings.Capabilities.testBit k || D.ReportsStatus.testBit k)) ∧
    (∀ k, D.ReportsStatus.testBit k = true →
      (c.PrepareStart D settings).2.Capabilities.testBit k = true) ∧
    (∀ k, D.ReportsStatus.testBit k = false →
      (c.PrepareStart D settings).2.Capabilities.testBit k =
        settings.Capabilities.testBit k) := by
  have hcaps : (c.PrepareStart D settings).2.Capabilities =
      Int.lor settings.Capabilities D.ReportsStatus := by
    revert hok
    simp only [ClientCommon.PrepareStart]
    repeat' split
    all_goals first | (intro _; rfl) | (intro h; simp at h)
  refine ⟨hcaps, ?_, ?_, ?_⟩
  · intro k; rw [hcaps, Int.testBit_lor]
  · intro k hk; rw [hcaps, Int.testBit_lor, hk, Bool.or_true]
  · intro k hk; rw [hcaps, Int.testBit_lor, hk, Bool.or_false]

/-- C14, at a concrete input: settings that ask for `AcceptsPackages` and
`ReportsPackageStatuses` only. -/
theorem PrepareStart_effective_capabilities_witness :
    (describedClient.PrepareStart opampDeps
      (settingsWith 0x18 (some emptyProvider))).2.Capabilities = 0x19 :=
  ((PrepareStart_effective_capabilities opampDeps describedClient
    (settingsWith 0x18 (some emptyProvider)) (by decide)).1).trans (by decide)

/-- What `SetRemoteConfigStatus` does when the capability is set, the hash is not nil
and the store accepts the status: the mask stays, the status is stored, and the sender
gets the status merged and a send scheduled unless the status equals the stored one. -/
theorem SetRemoteConfigStatus_accepted (D : Deps) (c : ClientCommon)
    (status : RemoteConfigStatus)
    (hcap : Int.land c.Capabilities D.ReportsRemoteConfig ≠ 0)
    (hhash : status.LastRemoteConfigHash ≠ none)
    (haccept : D.shapeRemoteConfigStatus (some status) = none) :
    (c.SetRemoteConfigStatus D (some status)).2.Capabilities = c.Capabilities ∧
    (c.SetRemoteConfigStatus D (some status)).2.ClientSyncedState.remoteConfigStatus =
      some status ∧
    (c.SetRemoteConfigStatus D (some status)).2.sender =
      (if protoEqual RemoteConfigStatus.equal c.ClientSyncedState.remoteConfigStatus
          (some status) then c.sender
        else
          (c.sender.UpdateNextMessage (fun msg =>
            { msg with RemoteConfigStatus := some status })).2.ScheduleSend) := by
  cases heq : protoEqual RemoteConfigStatus.equal c.ClientSyncedState.remoteConfigStatus
      (some status) <;>
  simp [ClientCommon.SetRemoteConfigStatus, hcap, hhash, haccept, heq,
    ClientSyncedState.SetRemoteConfigStatus, ClientSyncedState.RemoteConfigStatus]

/-- C12, counterexample: on a client whose stored status already equals the one reported,
two calls of `SetRemoteConfigStatus` with it schedule no send at all. -/
theorem SetRemoteConfigStatus_twice_without_send :
    Int.land appliedClient.Capabilities opampDeps.ReportsRemoteConfig ≠ 0 ∧
    ((appliedClient.SetRemoteConfigStatus opampDeps (some appliedStatus)).2.SetRemoteConfigStatus
      opampDeps (some appliedStatus)).2.sender.scheduleSendCalls =
      appliedClient.sender.scheduleSendCalls := by
  decide

/-- C12, amended. With the `ReportsRemoteConfig` bit set, for two statuses with a non-nil
hash that are `proto.Equal` and that the store accepts: the second call of
`SetRemoteConfigStatus` schedules no send and leaves the sender as the first call left
it, and the first call schedules one send exactly when its status differs from the one
stored before it, so the two calls schedule one send when it differs and none when it is
equal.  A following call with an accepted status whose hash is not nil and differs
schedules one more send. -/
theorem SetRemoteConfigStatus_change_gating (D : Deps) (c : ClientCommon)
    (first second third : RemoteConfigStatus)
    (hcap : Int.land c.Capabilities D.ReportsRemoteConfig ≠ 0)
    (hfirst : first.LastRemoteConfigHash ≠ none)
    (hsecond : second.LastRemoteConfigHash ≠ none)
    (hthird : third.LastRemoteConfigHash ≠ none)
    (hequal : protoEqual RemoteConfigStatus.equal (some first) (some second) = true)
    (hdiffers : bytesEqual second.LastRemoteConfigHash third.LastRemoteConfigHash = false)
    (hacceptFirst : D.shapeRemoteConfigStatus (some first) = none)
    (hacceptSecond : D.shapeRemoteConfigStatus (some second) = none)
    (hacceptThird : D.shapeRemoteConfigStatus (some third) = none) :
    ((c.SetRemoteConfigStatus D (some first)).2.SetRemoteConfigStatus D (some second)).2.sender =
      (c.SetRemoteConfigStatus D (some first)).2.sender ∧
    ((c.SetRemoteConfigStatus D (some first)).2.SetRemoteConfigStatus D
        (some second)).2.sender.scheduleSendCalls =
      c.sender.scheduleSendCalls +
        (if protoEqual RemoteConfigStatus.equal c.ClientSyncedState.RemoteConfigStatus
          (some first) then 0 else 1) ∧
    (((c.SetRemoteConfigStatus D (some first)).2.SetRemoteConfigStatus D
        (some second)).2.SetRemoteConfigStatus D (some third)).2.sender.scheduleSendCalls =
      ((c.SetRemoteConfigStatus D (some first)).2.SetRemoteConfigStatus D
        (some second)).2.sender.scheduleSendCalls + 1 := by
  have hne : protoEqual RemoteConfigStatus.equal (some second) (some third) = false := by
    simp [protoEqual, RemoteConfigStatus.equal, hdiffers]
  obtain ⟨caps1, stored1, sender1⟩ :=
    SetRemoteConfigStatus_accepted D c first hcap hfirst hacceptFirst
  obtain ⟨caps2, stored2, sender2⟩ :=
    SetRemoteConfigStatus_accepted D (c.SetRemoteConfigStatus D (some first)).2 second
      (by rw [caps1]; exact hcap) hsecond hacceptSecond
  obtain ⟨_, _, sender3⟩ :=
    SetRemoteConfigStatus_accepted D
      ((c.SetRemoteConfigStatus D (some first)).2.SetRemoteConfigStatus D (some second)).2 third
      (by rw [caps2, caps1]; exact hcap) hthird hacceptThird
  rw [stored1, hequal] at sender2
  rw [stored2, hne] at sender3
  simp only [if_true] at sender2
  refine ⟨sender2, ?_, ?_⟩
  · rw [sender2, sender1]
    simp only [ClientSyncedState.RemoteConfigStatus]
    by_cases hsame : protoEqual RemoteConfigStatus.equal
        c.ClientSyncedState.remoteConfigStatus (some first) = true <;>
    simp [hsame, SenderCommon.ScheduleSend, SenderCommon.UpdateNextMessage]
  · rw [sender3]
    simp [SenderCommon.ScheduleSend, SenderCommon.UpdateNextMessage]

/-- C12, amended, at a concrete input: a first status, an equal one, then one with another
hash, on a client that has reported none yet: one send, then one more. -/
theorem SetRemoteConfigStatus_change_gating_witness :
    ((reportingClient.SetRemoteConfigStatus opampDeps (some appliedStatus)).2.SetRemoteConfigStatus
        opampDeps (some appliedStatus)).2.sender.scheduleSendCalls =
      reportingClient.sender.scheduleSendCalls + 1 :=
  ((SetRemoteConfigStatus_change_gating opampDeps reportingClient appliedStatus appliedStatus
    failedStatus (by decide) (by decide) (by decide) (by decide) (by decide) (by decide)
    (by rfl) (by rfl) (by rfl)).2.1).trans (by decide)

/-- A reporting call leaves the capability mask as it is. -/
theorem call_Capabilities (D : Deps) (c : ClientCommon) (call : ReportingCall) :
    (c.call D call).2.Capabilities = c.Capabilities := by
  cases call <;> simp only [ClientCommon.call]
  · simp only [ClientCommon.SetAgentDescription]; split <;> rfl
  · simp only [ClientCommon.SetHealth]; split <;> rfl
  · simp only [ClientCommon.SetRemoteConfigStatus]
    repeat' split
    all_goals rfl
  · simp only [ClientCommon.SetPackageStatuses]
    repeat' split
    all_goals rfl
  · simp only [ClientCommon.SetCustomCapabilities]; split <;> rfl
  · rfl
  · simp only [ClientCommon.UpdateEffectiveConfig]
    repeat' split
    all_goals rfl
  · rfl

/-- A reporting call leaves the stopping flag as it is. -/
theorem call_isStoppingFlag (D : Deps) (c : ClientCommon) (call : ReportingCall) :
    (c.call D call).2.isStoppingFlag = c.isStoppingFlag := by
  cases call <;> simp only [ClientCommon.call]
  · simp only [ClientCommon.SetAgentDescription]; split <;> rfl
  · simp only [ClientCommon.SetHealth]; split <;> rfl
  · simp only [ClientCommon.SetRemoteConfigStatus]
    repeat' split
    all_goals rfl
  · simp only [ClientCommon.SetPackageStatuses]
    repeat' split
    all_goals rfl
  · simp only [ClientCommon.SetCustomCapabilities]; split <;> rfl
  · rfl
  · simp only [ClientCommon.UpdateEffectiveConfig]
    repeat' split
    all_goals rfl
  · rfl

/-- On a started client no operation changes the capability mask. -/
theorem apply_keeps_capabilities (D : Deps) (state : ClientCommon × Runtime) (op : Operation)
    (h : state.1.isStarted = true) :
    (ClientCommon.apply D state op).1.Capabilities = state.1.Capabilities := by
  cases op with
  | PrepareStart settings => simp [ClientCommon.apply, ClientCommon.PrepareStart, h]
  | StartConnectAndRun runner =>
    simp only [ClientCommon.apply, ClientCommon.StartConnectAndRun]
    split <;> rfl
  | Stop waited =>
    simp only [ClientCommon.apply, ClientCommon.Stop]
    repeat' split
    all_goals rfl
  | PrepareFirstMessage ctx =>
    simp only [ClientCommon.apply, ClientCommon.PrepareFirstMessage]
    repeat' split
    all_goals rfl
  | Report call => simp only [ClientCommon.apply, call_Capabilities]
  | SendCustomMessage message =>
    simp only [ClientCommon.apply, ClientCommon.SendCustomMessage]
    repeat' split
    all_goals rfl

/-- On a started client no sequence of operations changes the capability mask. -/
theorem applyAll_keeps_capabilities (D : Deps) (ops : List Operation) :
    ∀ state : ClientCommon × Runtime, state.1.isStarted = true →
      (ClientCommon.applyAll D state ops).1.Capabilities = state.1.Capabilities := by
  induction ops with
  | nil => intro state _; rfl
  | cons op rest ih =>
    intro state h
    have step := ih (ClientCommon.apply D state op) (apply_keeps_started D state op h)
    simp only [ClientCommon.applyAll, List.foldl_cons] at step ⊢
    rw [step, apply_keeps_capabilities D state op h]

/-- C15. Once the client is marked started, its capability mask never changes: each
operation (the reporting calls, `SendCustomMessage`, `Stop`, `StartConnectAndRun`,
`PrepareFirstMessage`, `PrepareStart`) and every sequence of them leaves it as it is, and
`PrepareStart` returns the already-started error with the client untouched; so after any
such sequence the capability tests of the gated operations read the mask of the start. -/
theorem capabilities_fixed_after_start (D : Deps) (state : ClientCommon × Runtime)
    (hstarted : state.1.isStarted = true) :
    (∀ op, (ClientCommon.apply D state op).1.Capabilities = state.1.Capabilities) ∧
    (∀ settings, state.1.PrepareStart D settings = (.err .errAlreadyStarted, state.1)) ∧
    (∀ ops, (ClientCommon.applyAll D state ops).1.Capabilities = state.1.Capabilities) ∧
    (∀ ops (bit : Int),
      Int.land (ClientCommon.applyAll D state ops).1.Capabilities bit =
        Int.land state.1.Capabilities bit) := by
  refine ⟨fun op => apply_keeps_capabilities D state op hstarted,
    fun settings => PrepareStart_started D state.1 settings hstarted,
    fun ops => applyAll_keeps_capabilities D ops state hstarted, fun ops bit => ?_⟩
  rw [applyAll_keeps_capabilities D ops state hstarted]

/-- C15, at a concrete input: a started client on which another start is prepared with
other capabilities, and which is then stopped. -/
theorem capabilities_fixed_witness :
    (ClientCommon.applyAll opampDeps
      (ClientCommon.applyAll opampDeps (describedClient, freshRuntime)
        [.PrepareStart (settingsWith 0x1 none), .StartConnectAndRun 0])
      [.PrepareStart (settingsWith 0x1018 (some emptyProvider)), .Stop none]).1.Capabilities =
      0x1 :=
  ((capabilities_fixed_after_start opampDeps
    (ClientCommon.applyAll opampDeps (describedClient, freshRuntime)
      [.PrepareStart (settingsWith 0x1 none), .StartConnectAndRun 0]) (by decide)).2.2.1
      [.PrepareStart (settingsWith 0x1018 (some emptyProvider)), .Stop none]).trans (by decide)

/-- The method `PrepareStart` leaves the started flag as it is. -/
theorem PrepareStart_isStarted (D : Deps) (c : ClientCommon) (settings : StartSettings) :
    (c.PrepareStart D settings).2.isStarted = c.isStarted := by
  simp only [ClientCommon.PrepareStart]
  repeat' split
  all_goals rfl

/-- An operation other than `StartConnectAndRun` on a client that is neither started nor
stopping leaves it so, and leaves the runtime as it is. -/
theorem apply_before_start (D : Deps) (state : ClientCommon × Runtime) (op : Operation)
    (hop : op.isStartConnectAndRun = false)
    (h : state.1.isStarted = false ∧ state.1.isStoppingFlag = false) :
    ((ClientCommon.apply D state op).1.isStarted = false ∧
      (ClientCommon.apply D state op).1.isStoppingFlag = false) ∧
    (ClientCommon.apply D state op).2 = state.2 := by
  obtain ⟨hs, hf⟩ := h
  cases op with
  | PrepareStart settings =>
    simp only [ClientCommon.apply, PrepareStart_isStarted, PrepareStart_isStoppingFlag, hs, hf,
      and_self]
  | StartConnectAndRun runner => simp [Operation.isStartConnectAndRun] at hop
  | Stop waited => simp [ClientCommon.apply, ClientCommon.Stop, hs, hf]
  | PrepareFirstMessage ctx =>
    simp only [ClientCommon.apply, ClientCommon.PrepareFirstMessage]
    repeat' split
    all_goals simp [hs, hf]
  | Report call =>
    simp only [ClientCommon.apply, call_isStarted, call_isStoppingFlag, hs, hf, and_self]
  | SendCustomMessage message =>
    simp only [ClientCommon.apply, ClientCommon.SendCustomMessage]
    repeat' split
    all_goals simp [hs, hf]

/-- Operations other than `StartConnectAndRun` on a client that is neither started nor
stopping leave it so, and leave the runtime as it is. -/
theorem applyAll_before_start (D : Deps) (ops : List Operation) :
    ∀ state : ClientCommon × Runtime,
      (∀ op ∈ ops, op.isStartConnectAndRun = false) →
      state.1.isStarted = false ∧ state.1.isStoppingFlag = false →
      ((ClientCommon.applyAll D state ops).1.isStarted = false ∧
        (ClientCommon.applyAll D state ops).1.isStoppingFlag = false) ∧
      (ClientCommon.applyAll D state ops).2 = state.2 := by
  induction ops with
  | nil => intro state _ h; exact ⟨h, rfl⟩
  | cons op rest ih =>
    intro state hops h
    have step := apply_before_start D state op (hops op (List.mem_cons_self _ _)) h
    have rec := ih (ClientCommon.apply D state op)
      (fun x hx => hops x (List.mem_cons_of_mem _ hx)) step.1
    simp only [ClientCommon.applyAll, List.foldl_cons] at rec ⊢
    exact ⟨rec.1, rec.2.trans step.2⟩

/-- C16. On a client reached from a new one by any operations other than
`StartConnectAndRun` (calls of `PrepareStart` among them), `Stop` returns the not-started
error and leaves client and runtime as they were: the stopping flag is unset and no
context is cancelled; a `StartConnectAndRun` after it marks the client started and
launches the runner with a context that is not cancelled. -/
theorem Stop_before_start (D : Deps) (sender : SenderCommon) (rt : Runtime)
    (ops : List Operation) (waited : Option Error)
    (hops : ∀ op ∈ ops, op.isStartConnectAndRun = false) :
    (ClientCommon.applyAll D (NewClientCommon sender, rt) ops).1.Stop
        (ClientCommon.applyAll D (NewClientCommon sender, rt) ops).2 waited =
      (.err .errCannotStopNotStarted,
        ClientCommon.applyAll D (NewClientCommon sender, rt) ops) ∧
    (ClientCommon.applyAll D (NewClientCommon sender, rt) ops).1.isStoppingFlag = false ∧
    (ClientCommon.applyAll D (NewClientCommon sender, rt) ops).2.cancelled = rt.cancelled ∧
    ∀ runner,
      (ClientCommon.apply D
        (ClientCommon.apply D (ClientCommon.applyAll D (NewClientCommon sender, rt) ops)
          (.Stop waited)) (.StartConnectAndRun runner)).1.isStarted = true ∧
      (ClientCommon.apply D
        (ClientCommon.apply D (ClientCommon.applyAll D (NewClientCommon sender, rt) ops)
          (.Stop waited)) (.StartConnectAndRun runner)).2.runners =
        (runner, rt.contexts) :: rt.runners ∧
      (ClientCommon.apply D
        (ClientCommon.apply D (ClientCommon.applyAll D (NewClientCommon sender, rt) ops)
          (.Stop waited)) (.StartConnectAndRun runner)).2.cancelled = rt.cancelled := by
  obtain ⟨⟨hs, hf⟩, hrt⟩ := applyAll_before_start D ops (NewClientCommon sender, rt) hops
    ⟨rfl, rfl⟩
  have hstop : (ClientCommon.applyAll D (NewClientCommon sender, rt) ops).1.Stop
        (ClientCommon.applyAll D (NewClientCommon sender, rt) ops).2 waited =
      (.err .errCannotStopNotStarted,
        ClientCommon.applyAll D (NewClientCommon sender, rt) ops) := by
    simp [ClientCommon.Stop, hs]
  refine ⟨hstop, hf, by rw [hrt], fun runner => ?_⟩
  simp only [ClientCommon.apply, hstop]
  simp only [hrt] at *
  simp [ClientCommon.StartConnectAndRun, hf, hrt]

/-- C16, at a concrete input: a stop after a description was set and a start prepared,
then a start. -/
theorem Stop_before_start_witness :
    (ClientCommon.applyAll opampDeps (NewClientCommon idleSender, freshRuntime)
      [.Report (.SetAgentDescription (some sampleDescription)),
        .PrepareStart (settingsWith 0x1 none)]).1.Stop
      (ClientCommon.applyAll opampDeps (NewClientCommon idleSender, freshRuntime)
        [.Report (.SetAgentDescription (some sampleDescription)),
          .PrepareStart (settingsWith 0x1 none)]).2 none =
      (.err .errCannotStopNotStarted,
        ClientCommon.applyAll opampDeps (NewClientCommon idleSender, freshRuntime)
          [.Report (.SetAgentDescription (some sampleDescription)),
            .PrepareStart (settingsWith 0x1 none)]) :=
  (Stop_before_start opampDeps idleSender freshRuntime
    [.Report (.SetAgentDescription (some sampleDescription)),
      .PrepareStart (settingsWith 0x1 none)] none
    (by intro op hop; simp at hop; rcases hop with rfl | rfl <;> rfl)).1

/-- C18, counterexample: `SetAgentDescription` with a description without attributes, on a
store that accepts it, leaves a not-started client that holds this description; on it
`PrepareStart` does not return the no-attributes error: it succeeds. -/
theorem PrepareStart_ignores_attributes :
    ((NewClientCommon idleSender).SetAgentDescription presenceDeps (some bareDescription)).1 =
      .nil ∧
    bareClient.isStarted = false ∧
    bareClient.ClientSyncedState.AgentDescription = some bareDescription ∧
    bareDescription.IdentifyingAttributes = [] ∧
    bareDescription.NonIdentifyingAttributes = [] ∧
    (bareClient.PrepareStart presenceDeps (settingsWith 0x1 none)).1 = .nil := by
  decide

/-- C18, amended. On a not-started client `PrepareStart` returns the description-missing
error when no agent description is held.  When one is held, with or without attributes,
the call gets past this check: it returns the health-missing error when `ReportsHealth` is
in effect and no health is held, and otherwise what the later steps give, the error of the
first of them that fails or nil, which does not depend on the description.  So the outcome
is the same for any two descriptions held, and the no-attributes error is returned only
when a later step returns it.  It is `SetAgentDescription` that returns what the store's
rule rejects, leaving the client as it was. -/
theorem PrepareStart_description_check (D : Deps) (c : ClientCommon) (settings : StartSettings)
    (hstart : c.isStarted = false) :
    (c.ClientSyncedState.AgentDescription = none →
      (c.PrepareStart D settings).1 = .err .ErrAgentDescriptionMissing) ∧
    (∀ d : AgentDescription, c.ClientSyncedState.AgentDescription = some d →
      Int.land (Int.lor settings.Capabilities D.ReportsStatus) D.ReportsHealth ≠ 0 ∧
        c.ClientSyncedState.Health = none →
      (c.PrepareStart D settings).1 = .err .ErrHealthMissing) ∧
    (∀ d : AgentDescription, c.ClientSyncedState.AgentDescription = some d →
      ¬ (Int.land (Int.lor settings.Capabilities D.ReportsStatus) D.ReportsHealth ≠ 0 ∧
        c.ClientSyncedState.Health = none) →
      (c.PrepareStart D settings).1 =
        (match laterError D settings with
          | some e => .err e
          | none => .nil)) ∧
    (∀ d1 d2 : AgentDescription,
      ((c.holding (some d1)).PrepareStart D settings).1 =
        ((c.holding (some d2)).PrepareStart D settings).1) ∧
    (∀ d : AgentDescription, c.ClientSyncedState.AgentDescription = some d →
      (c.PrepareStart D settings).1 = .err .ErrAgentDescriptionNoAttributes →
      laterError D settings = some .ErrAgentDescriptionNoAttributes) ∧
    (∀ descr e, D.shapeAgentDescription descr = some e →
      c.SetAgentDescription D descr = (.err e, c)) := by
  have past : ∀ (c : ClientCommon), c.isStarted = false →
      ∀ d : AgentDescription, c.ClientSyncedState.AgentDescription = some d →
      ¬ (Int.land (Int.lor settings.Capabilities D.ReportsStatus) D.ReportsHealth ≠ 0 ∧
        c.ClientSyncedState.Health = none) →
      (c.PrepareStart D settings).1 =
        (match laterError D settings with
          | some e => .err e
          | none => .nil) := by
    intro c hs d hd hh
    simp only [ClientSyncedState.AgentDescription, ClientSyncedState.Health] at hd hh
    exact (PrepareStart_late D c settings hs (by rw [hd]; simp) hh).1
  have health : ∀ (c : ClientCommon), c.isStarted = false →
      ∀ d : AgentDescription, c.ClientSyncedState.AgentDescription = some d →
      Int.land (Int.lor settings.Capabilities D.ReportsStatus) D.ReportsHealth ≠ 0 ∧
        c.ClientSyncedState.Health = none →
      (c.PrepareStart D settings).1 = .err .ErrHealthMissing := by
    intro c hs d hd hh
    simp [ClientCommon.PrepareStart, hs, hd, hh]
  refine ⟨?_, health c hstart, past c hstart, ?_, ?_, ?_⟩
  · intro h
    simp [ClientCommon.PrepareStart, hstart, h]
  · intro d1 d2
    have hs1 : (c.holding (some d1)).isStarted = false := by
      simpa [ClientCommon.holding] using hstart
    have hs2 : (c.holding (some d2)).isStarted = false := by
      simpa [ClientCommon.holding] using hstart
    have hd1 : (c.holding (some d1)).ClientSyncedState.AgentDescription = some d1 := rfl
    have hd2 : (c.holding (some d2)).ClientSyncedState.AgentDescription = some d2 := rfl
    have hh12 : (c.holding (some d1)).ClientSyncedState.Health =
        (c.holding (some d2)).ClientSyncedState.Health := rfl
    by_cases hh : Int.land (Int.lor settings.Capabilities D.ReportsStatus) D.ReportsHealth ≠ 0 ∧
        (c.holding (some d1)).ClientSyncedState.Health = none
    · rw [health _ hs1 d1 hd1 hh, health _ hs2 d2 hd2 (hh12 ▸ hh)]
    · rw [past _ hs1 d1 hd1 hh, past _ hs2 d2 hd2 (hh12 ▸ hh)]
  · intro d hd hret
    by_cases hh : Int.land (Int.lor settings.Capabilities D.ReportsStatus) D.ReportsHealth ≠ 0 ∧
        c.ClientSyncedState.Health = none
    · rw [health c hstart d hd hh] at hret
      simp at hret
    · rw [past c hstart d hd hh] at hret
      rcases hl : laterError D settings with _ | e
      · rw [hl] at hret; simp at hret
      · rw [hl] at hret; simp at hret; rw [hret]
  · intro descr e h
    simp [ClientCommon.SetAgentDescription, ClientSyncedState.SetAgentDescription, h]

/-- C18, amended, at concrete inputs: a new client, which holds no description, gets the
description-missing error; a client holding a description without attributes gets past the
check and starts; a described client without health gets the health-missing error when
started with `ReportsHealth`. -/
theorem PrepareStart_description_check_witness :
    ((NewClientCommon idleSender).PrepareStart opampDeps (settingsWith 0x1 none)).1 =
      .err .ErrAgentDescriptionMissing ∧
    (bareClient.PrepareStart presenceDeps (settingsWith 0x1 none)).1 = .nil ∧
    (describedClient.PrepareStart opampDeps (settingsWith 0x800 none)).1 =
      .err .ErrHealthMissing :=
  ⟨(PrepareStart_description_check opampDeps (NewClientCommon idleSender)
      (settingsWith 0x1 none) (by decide)).1 (by decide),
    (PrepareStart_description_check presenceDeps bareClient (settingsWith 0x1 none)
      (by decide)).2.2.1 bareDescription (by decide) (by decide),
    (PrepareStart_description_check opampDeps describedClient (settingsWith 0x800 none)
      (by decide)).2.1 sampleDescription (by decide) (by decide)⟩

/-- C17. The method `sendNextMessage` pops the pending slot, which is empty afterwards in
every case.  When nothing was pending, or the popped message is `proto.Equal` to the empty
message, it returns nil and nothing else of the sender changes: no write is made.  When
the popped message is present and not equal to the empty message, it is handed to the
connection for writing, and the result is the result of that write.  So, on a sender with
a connection, a write is made if and only if the popped message is present and not equal
to the empty message. -/
theorem sendNextMessage_writes_nonempty (s : WSSender) (written : Option Error) :
    (s.sendNextMessage written).2.SenderCommon.nextMessage =
      { nextMessage := AgentToServer.empty, messagePending := false } ∧
    ((s.SenderCommon.nextMessage.PopPending.1 = none ∨
        ∃ msg, s.SenderCommon.nextMessage.PopPending.1 = some msg ∧
          protoEqual AgentToServer.equal (some msg) (some AgentToServer.empty) = true) →
      s.sendNextMessage written =
        (.nil, { s with SenderCommon :=
          { s.SenderCommon with nextMessage := s.SenderCommon.nextMessage.PopPending.2 } })) ∧
    (∀ conn msg, s.conn = some conn →
      s.SenderCommon.nextMessage.PopPending.1 = some msg →
      protoEqual AgentToServer.equal (some msg) (some AgentToServer.empty) = false →
      (s.sendNextMessage written).2.conn =
          some { conn with written := msg :: conn.written } ∧
        (s.sendNextMessage written).1 =
          (match written with
            | some err => .err err
            | none => .nil)) ∧
    (∀ conn, s.conn = some conn →
      ((s.sendNextMessage written).2.conn ≠ s.conn ↔
        ∃ msg, s.SenderCommon.nextMessage.PopPending.1 = some msg ∧
          protoEqual AgentToServer.equal (some msg) (some AgentToServer.empty) = false)) := by
  have hslot : ∀ w, (s.sendNextMessage w).2.SenderCommon.nextMessage =
      { nextMessage := AgentToServer.empty, messagePending := false } := by
    intro w
    simp only [WSSender.sendNextMessage, WSSender.sendMessage, NextMessage.PopPending]
    repeat' split
    all_goals rfl
  have hnone : ∀ w, (s.SenderCommon.nextMessage.PopPending.1 = none ∨
        ∃ msg, s.SenderCommon.nextMessage.PopPending.1 = some msg ∧
          protoEqual AgentToServer.equal (some msg) (some AgentToServer.empty) = true) →
      s.sendNextMessage w =
        (.nil, { s with SenderCommon :=
          { s.SenderCommon with nextMessage := s.SenderCommon.nextMessage.PopPending.2 } }) := by
    intro w h
    rcases h with h | ⟨msg, h, heq⟩
    · simp [WSSender.sendNextMessage, h]
    · simp [WSSender.sendNextMessage, h, heq]
  have hsome : ∀ w conn msg, s.conn = some conn →
      s.SenderCommon.nextMessage.PopPending.1 = some msg →
      protoEqual AgentToServer.equal (some msg) (some AgentToServer.empty) = false →
      (s.sendNextMessage w).2.conn = some { conn with written := msg :: conn.written } ∧
        (s.sendNextMessage w).1 =
          (match w with
            | some err => .err err
            | none => .nil) := by
    intro w conn msg hconn hpop hne
    cases w <;> simp [WSSender.sendNextMessage, WSSender.sendMessage, hconn, hpop, hne]
  refine ⟨hslot written, hnone written, hsome written, fun conn hconn => ?_⟩
  constructor
  · intro hchanged
    rcases hpop : s.SenderCommon.nextMessage.PopPending.1 with _ | msg
    · exact absurd (by rw [hnone written (Or.inl hpop)]) hchanged
    · cases heq : protoEqual AgentToServer.equal (some msg) (some AgentToServer.empty)
      · exact ⟨msg, rfl, heq⟩
      · exact absurd (by rw [hnone written (Or.inr ⟨msg, hpop, heq⟩)]) hchanged
  · rintro ⟨msg, hpop, hne⟩
    rw [(hsome written conn msg hconn hpop hne).1, hconn]
    intro h
    have := congrArg (fun k => (k.map (fun x => x.written.length))) h
    simp at this

/-- C17, at a concrete input: a sender with a connection and a pending message that has
its flags populated writes it; with an empty pending message it writes nothing. -/
theorem sendNextMessage_witness :
    ((connectedSender { nextMessage := flagsMessage, messagePending := true }).sendNextMessage
      none).2.conn = some { freshConn with written := [flagsMessage] } ∧
    ((connectedSender emptySlot).sendNextMessage none).2.conn = some freshConn :=
  ⟨((sendNextMessage_writes_nonempty
      (connectedSender { nextMessage := flagsMessage, messagePending := true }) none).2.2.1
      freshConn flagsMessage (by rfl) (by decide) (by decide)).1,
   by
    rw [(sendNextMessage_writes_nonempty (connectedSender emptySlot) none).2.1
      (Or.inr ⟨AgentToServer.empty, by decide, by decide⟩)]
    rfl⟩

/-- The method `sendNextMessage` leaves the terminal error of the sender as it is. -/
theorem sendNextMessage_err (s : WSSender) (written : Option Error) :
    (s.sendNextMessage written).2.err = s.err := by
  simp only [WSSender.sendNextMessage, WSSender.sendMessage]
  repeat' split
  all_goals rfl

/-- The method `sendNextMessage` does not panic on a sender that has a connection, and
leaves it with a connection. -/
theorem sendNextMessage_conn (s : WSSender) (written : Option Error) (h : s.conn ≠ none) :
    (s.sendNextMessage written).1 ≠ .panic ∧ (s.sendNextMessage written).2.conn ≠ none := by
  rcases hconn : s.conn with _ | conn
  · exact absurd hconn h
  · simp only [WSSender.sendNextMessage, WSSender.sendMessage, hconn]
    repeat' split
    all_goals simp_all

/-- One turn of the sender loop: a has-pending turn never leaves the loop and never
touches the terminal error; a turn that leaves the loop is a cancelled turn and sets the
terminal error to the result of the close frame. -/
theorem runTurn_cases (s : WSSender) (event : SenderEvent) :
    (event.isHasPending = true →
      (s.runTurn event).2 ≠ .ends ∧ (s.runTurn event).1.err = s.err ∧
      (s.conn ≠ none → (s.runTurn event).2 = .goesOn ∧ (s.runTurn event).1.conn ≠ none)) ∧
    ((s.runTurn event).2 = .ends →
      ∃ closed, event = .cancelled closed ∧ (s.runTurn event).1.err = closed) ∧
    (∀ closed, event = .cancelled closed → s.conn ≠ none →
      (s.runTurn event).2 = .ends ∧ (s.runTurn event).1.err = closed) := by
  cases event with
  | hasPending written =>
    refine ⟨fun _ => ?_, ?_, ?_⟩
    · have herr := sendNextMessage_err
        { s with SenderCommon := { s.SenderCommon with hasPendingMessage := false } } written
      refine ⟨?_, ?_, ?_⟩
      · simp only [WSSender.runTurn]
        split <;> simp
      · simp only [WSSender.runTurn]
        split
        · rename_i heq; rw [heq] at herr; exact herr
        · rename_i heq; rw [heq] at herr; exact herr
      · intro hconn
        have hc := sendNextMessage_conn
          { s with SenderCommon := { s.SenderCommon with hasPendingMessage := false } } written
          hconn
        simp only [WSSender.runTurn]
        split
        · rename_i heq; rw [heq] at hc; exact absurd rfl hc.1
        · rename_i heq; rw [heq] at hc; exact ⟨rfl, hc.2⟩
    · simp only [WSSender.runTurn]
      split <;> simp
    · intro closed h; cases h
  | cancelled closed =>
    refine ⟨fun h => by simp [SenderEvent.isHasPending] at h, ?_, ?_⟩
    · intro hends
      refine ⟨closed, rfl, ?_⟩
      revert hends
      simp only [WSSender.runTurn, WSSender.sendCloseMessage]
      rcases s.conn with _ | conn <;> rcases closed with _ | err <;> simp
    · intro closed2 h hconn
      cases h
      rcases hc : s.conn with _ | conn
      · exact absurd hc hconn
      · rcases closed with _ | err <;>
        simp [WSSender.runTurn, WSSender.sendCloseMessage, hc]

/-- The sender loop on has-pending events alone is not left and does not touch the
terminal error. -/
theorem run_hasPending (events : List SenderEvent) :
    ∀ s : WSSender, (∀ e ∈ events, e.isHasPending = true) →
      (s.run events).2 ≠ .ends ∧ (s.run events).1.err = s.err := by
  induction events with
  | nil => intro s _; simp [WSSender.run]
  | cons event rest ih =>
    intro s h
    have hturn := (runTurn_cases s event).1 (h event (List.mem_cons_self _ _))
    simp only [WSSender.run]
    rcases hres : s.runTurn event with ⟨s1, turn⟩
    rw [hres] at hturn
    cases turn with
    | goesOn =>
      have rec := ih s1 (fun e he => h e (List.mem_cons_of_mem _ he))
      exact ⟨rec.1, rec.2.trans hturn.2.1⟩
    | ends => exact absurd rfl hturn.1
    | panics => exact ⟨by simp, hturn.2.1⟩

/-- When the sender loop is left, the events up to there were has-pending events followed
by a cancellation; the terminal error is the result of its close frame and `stopped` is
closed. -/
theorem run_ends (events : List SenderEvent) :
    ∀ s : WSSender, (s.run events).2 = .ends →
      ∃ before closed after, events = before ++ SenderEvent.cancelled closed :: after ∧
        (∀ e ∈ before, e.isHasPending = true) ∧
        (s.run events).1.err = closed ∧ (s.run events).1.stopped = some true := by
  induction events with
  | nil => intro s h; simp [WSSender.run] at h
  | cons event rest ih =>
    intro s h
    simp only [WSSender.run] at h ⊢
    rcases hres : s.runTurn event with ⟨s1, turn⟩
    rw [hres] at h
    cases turn with
    | goesOn =>
      obtain ⟨before, closed, after, hev, hbefore, herr, hstopped⟩ := ih s1 h
      have hpending : event.isHasPending = true := by
        cases event with
        | hasPending written => rfl
        | cancelled closed2 =>
          have := hres
          simp only [WSSender.runTurn] at this
          repeat' split at this
          all_goals simp at this
      refine ⟨event :: before, closed, after, by simp [hev], ?_, herr, hstopped⟩
      intro e he
      rcases List.mem_cons.mp he with rfl | he
      · exact hpending
      · exact hbefore e he
    | ends =>
      obtain ⟨closed, hev, herr⟩ := (runTurn_cases s event).2.1 (by rw [hres])
      rw [hres] at herr
      exact ⟨[], closed, rest, by simp [hev], by simp, herr, rfl⟩
    | panics => simp at h

/-- The method `sendNextMessage` leaves the record of launched loops as it is. -/
theorem sendNextMessage_loops (s : WSSender) (written : Option Error) :
    (s.sendNextMessage written).2.loops = s.loops := by
  simp only [WSSender.sendNextMessage, WSSender.sendMessage]
  repeat' split
  all_goals rfl

/-- C20. In the sender loop a has-pending turn never leaves the loop and never touches the
terminal error, whatever the result of its write, and on a sender with a connection the
loop goes on; a turn that leaves the loop is a cancelled turn, and the terminal error is
then the result of writing the close frame.  So a loop over has-pending events alone is
not left, and a loop that is left has taken has-pending turns and then one cancelled
turn, whose close-frame result is the terminal error, and has closed `stopped`.  `Start`
returns the result of its first synchronous send and launches the loop whatever that
result is, in particular when the write of the first message fails. -/
theorem sender_loop_turns_and_start (s : WSSender) :
    (∀ written,
      (s.runTurn (.hasPending written)).2 ≠ .ends ∧
      (s.runTurn (.hasPending written)).1.err = s.err ∧
      (s.conn ≠ none → (s.runTurn (.hasPending written)).2 = .goesOn)) ∧
    (∀ event, (s.runTurn event).2 = .ends →
      ∃ closed, event = .cancelled closed ∧ (s.runTurn event).1.err = closed) ∧
    (∀ closed, s.conn ≠ none →
      (s.runTurn (.cancelled closed)).2 = .ends ∧
      (s.runTurn (.cancelled closed)).1.err = closed) ∧
    (∀ events, (∀ e ∈ events, e.isHasPending = true) →
      (s.run events).2 ≠ .ends ∧ (s.run events).1.err = s.err) ∧
    (∀ events, (s.run events).2 = .ends →
      ∃ before closed after, events = before ++ SenderEvent.cancelled closed :: after ∧
        (∀ e ∈ before, e.isHasPending = true) ∧
        (s.run events).1.err = closed ∧ (s.run events).1.stopped = some true) ∧
    (∀ ctx conn written,
      (s.Start ctx conn written).1 =
        (WSSender.sendNextMessage { s with conn := some conn } written).1 ∧
      (s.Start ctx conn written).2.loops = ctx :: s.loops ∧
      (s.Start ctx conn written).2.stopped = some false ∧
      (s.Start ctx conn written).2.err = none) ∧
    (∀ ctx conn msg e,
      s.SenderCommon.nextMessage.PopPending.1 = some msg →
      protoEqual AgentToServer.equal (some msg) (some AgentToServer.empty) = false →
      (s.Start ctx conn (some e)).1 = .err e ∧
      (s.Start ctx conn (some e)).2.loops = ctx :: s.loops) := by
  refine ⟨fun written => ?_, fun event => (runTurn_cases s event).2.1,
    fun closed hconn => (runTurn_cases s (.cancelled closed)).2.2 closed rfl hconn,
    fun events => run_hasPending events s, fun events => run_ends events s,
    fun ctx conn written => ⟨rfl, ?_, rfl, rfl⟩, fun ctx conn msg e hpop hne => ?_⟩
  · have h := (runTurn_cases s (.hasPending written)).1 rfl
    exact ⟨h.1, h.2.1, fun hconn => (h.2.2 hconn).1⟩
  · simp only [WSSender.Start, sendNextMessage_loops]
  · refine ⟨?_, ?_⟩
    · simp [WSSender.Start, WSSender.sendNextMessage, WSSender.sendMessage, hpop, hne]
    · simp only [WSSender.Start, sendNextMessage_loops]

/-- C20, at a concrete input: a start whose first write fails returns that error and
launches the loop; a failing has-pending turn on the started sender goes on, and the
cancelled turn ends the loop with the close-frame result. -/
theorem sender_loop_witness :
    (loadedSender.Start 3 freshConn (some (.collaborator "write failed"))).1 =
      .err (.collaborator "write failed") ∧
    (loadedSender.Start 3 freshConn (some (.collaborator "write failed"))).2.loops = [3] ∧
    ((loadedSender.Start 3 freshConn none).2.runTurn
      (.hasPending (some (.collaborator "write failed")))).2 = .goesOn ∧
    ((loadedSender.Start 3 freshConn none).2.runTurn (.cancelled none)).1.err = none :=
  ⟨((sender_loop_turns_and_start loadedSender).2.2.2.2.2.2 3 freshConn flagsMessage
      (.collaborator "write failed") (by decide) (by decide)).1,
   ((sender_loop_turns_and_start loadedSender).2.2.2.2.2.2 3 freshConn flagsMessage
      (.collaborator "write failed") (by decide) (by decide)).2,
   ((sender_loop_turns_and_start (loadedSender.Start 3 freshConn none).2).1
      (some (.collaborator "write failed"))).2.2 (by decide),
   ((sender_loop_turns_and_start (loadedSender.Start 3 freshConn none).2).2.2.1 none
      (by decide)).2⟩

/-- C19. In a turn of the receiver loop in which receiving fails with an error (the read
error itself, or the decode error wrapped), the error is logged as unexpected if and only
if the context is not cancelled and the error is not a normal-closure close error; in
every such case the error becomes the terminal error, nothing is handed to the processor,
and the loop is left, the processor context cancelled and `stopped` closed, whatever reads
would follow.  In a turn in which receiving succeeds the message is handed to the
processor, nothing is logged, the terminal error is not touched and the loop goes on with
the next read.  Receiving succeeds exactly when the read gives a frame and the frame
decodes, and then the message handed to the processor is the decoded one. -/
theorem receiver_loop_turn (DecodeWSMessage : List Nat → Except Error ServerToAgent)
    (r : wsReceiver) (cancelled : Bool) (read : ReadResult)
    (rest : List (Bool × ReadResult)) :
    (∀ err, read = .failed err →
      wsReceiver.receiveMessage DecodeWSMessage read = .error err) ∧
    (∀ bytes err, read = .frame bytes → DecodeWSMessage bytes = .error err →
      wsReceiver.receiveMessage DecodeWSMessage read =
        .error (.wrapped "cannot decode received message" err)) ∧
    (∀ e, wsReceiver.receiveMessage DecodeWSMessage read = .error e →
      ((wsReceiver.loopTurn DecodeWSMessage r cancelled read).1.logged = e :: r.logged ↔
        (cancelled = false ∧ IsCloseError e CloseNormalClosure = false)) ∧
      ((wsReceiver.loopTurn DecodeWSMessage r cancelled read).1.logged ≠ e :: r.logged →
        (wsReceiver.loopTurn DecodeWSMessage r cancelled read).1.logged = r.logged) ∧
      (wsReceiver.loopTurn DecodeWSMessage r cancelled read).1.err = some e ∧
      (wsReceiver.loopTurn DecodeWSMessage r cancelled read).1.processed = r.processed ∧
      (wsReceiver.loopTurn DecodeWSMessage r cancelled read).2 = .ends ∧
      wsReceiver.ReceiverLoop DecodeWSMessage r ((cancelled, read) :: rest) =
        ({ (wsReceiver.loopTurn DecodeWSMessage r cancelled read).1 with
            processorStopped := true, stopped := true }, .ends)) ∧
    (∀ message, wsReceiver.receiveMessage DecodeWSMessage read = .ok message →
      wsReceiver.loopTurn DecodeWSMessage r cancelled read =
        ({ r with processed := message :: r.processed }, .goesOn) ∧
      (wsReceiver.loopTurn DecodeWSMessage r cancelled read).1.err = r.err ∧
      (wsReceiver.loopTurn DecodeWSMessage r cancelled read).1.logged = r.logged ∧
      wsReceiver.ReceiverLoop DecodeWSMessage r ((cancelled, read) :: rest) =
        wsReceiver.ReceiverLoop DecodeWSMessage
          { r with processed := message :: r.processed } rest) ∧
    (∀ bytes message, read = .frame bytes → DecodeWSMessage bytes = .ok message →
      wsReceiver.receiveMessage DecodeWSMessage read = .ok message ∧
      wsReceiver.loopTurn DecodeWSMessage r cancelled read =
        ({ r with processed := message :: r.processed }, .goesOn) ∧
      wsReceiver.ReceiverLoop DecodeWSMessage r ((cancelled, read) :: rest) =
        wsReceiver.ReceiverLoop DecodeWSMessage
          { r with processed := message :: r.processed } rest) ∧
    (∀ message, wsReceiver.receiveMessage DecodeWSMessage read = .ok message →
      ∃ bytes, read = .frame bytes ∧ DecodeWSMessage bytes = .ok message) := by
  refine ⟨?_, ?_, ?_, ?_, ?_, ?_⟩
  · rintro err rfl
    rfl
  · rintro bytes err rfl hdecode
    simp [wsReceiver.receiveMessage, hdecode]
  · intro e he
    have hne : r.logged ≠ e :: r.logged := by
      intro h
      have := congrArg List.length h
      simp at this
    cases cancelled <;> cases hclose : IsCloseError e CloseNormalClosure <;>
      simp [wsReceiver.loopTurn, wsReceiver.ReceiverLoop, he, hclose, hne]
  · intro message hm
    simp [wsReceiver.loopTurn, wsReceiver.ReceiverLoop, hm]
  · rintro bytes message rfl hdecode
    simp [wsReceiver.loopTurn, wsReceiver.ReceiverLoop, wsReceiver.receiveMessage, hdecode]
  · intro message hm
    cases read with
    | failed err => simp [wsReceiver.receiveMessage] at hm
    | frame bytes =>
      refine ⟨bytes, rfl, ?_⟩
      rcases hdecode : DecodeWSMessage bytes with err | decoded
      · simp [wsReceiver.receiveMessage, hdecode] at hm
      · simp [wsReceiver.receiveMessage, hdecode] at hm
        rw [hm]

/-- C19, at concrete inputs: a frame that does not decode, read while the context is not
cancelled, is logged, recorded and ends the loop; a normal closure is recorded and not
logged; a frame that decodes is handed to the processor as decoded, and the loop goes on
to the next read, which here fails and ends it. -/
theorem receiver_loop_witness :
    (wsReceiver.loopTurn sampleDecode newReceiver false (.frame [0, 1])).1.err =
      some (.wrapped "cannot decode received message" (.collaborator "bad frame")) ∧
    ((wsReceiver.loopTurn sampleDecode newReceiver false (.frame [0, 1])).1.logged =
      [.wrapped "cannot decode received message" (.collaborator "bad frame")]) ∧
    ((wsReceiver.loopTurn sampleDecode newReceiver false
      (.failed (.closeError 1000))).1.logged = []) ∧
    wsReceiver.loopTurn sampleDecode newReceiver false (.frame [1, 2]) =
      ({ newReceiver with processed := [{ Payload := [1, 2] }] }, .goesOn) ∧
    wsReceiver.ReceiverLoop sampleDecode newReceiver
        [(false, .frame [1, 2]), (true, .failed (.closeError 1000))] =
      ({ logged := [], processed := [{ Payload := [1, 2] }], processorStopped := true,
         stopped := true, err := some (.closeError 1000) }, .ends) :=
  ⟨((receiver_loop_turn sampleDecode newReceiver false (.frame [0, 1]) []).2.2.1
      (.wrapped "cannot decode received message" (.collaborator "bad frame"))
      (by rfl)).2.2.1,
   ((receiver_loop_turn sampleDecode newReceiver false (.frame [0, 1]) []).2.2.1
      (.wrapped "cannot decode received message" (.collaborator "bad frame"))
      (by rfl)).1.mpr ⟨rfl, by decide⟩,
   ((receiver_loop_turn sampleDecode newReceiver false (.failed (.closeError 1000)) []).2.2.1
      (.closeError 1000) (by rfl)).2.1
      (by
        intro h
        have := ((receiver_loop_turn sampleDecode newReceiver false
          (.failed (.closeError 1000)) []).2.2.1 (.closeError 1000) (by rfl)).1.mp h
        exact absurd this.2 (by decide)),
   ((receiver_loop_turn sampleDecode newReceiver false (.frame [1, 2]) []).2.2.2.2.1
      [1, 2] { Payload := [1, 2] } rfl rfl).2.1,
   ((receiver_loop_turn sampleDecode newReceiver false (.frame [1, 2])
      [(true, .failed (.closeError 1000))]).2.2.2.2.1
      [1, 2] { Payload := [1, 2] } rfl rfl).2.2.trans (by decide)⟩

/-- The method `PrepareStart` leaves the stored cancellation func as it is. -/
theorem PrepareStart_runCancel (D : Deps) (c : ClientCommon) (settings : StartSettings) :
    (c.PrepareStart D settings).2.runCancel = c.runCancel := by
  simp only [ClientCommon.PrepareStart]
  repeat' split
  all_goals rfl

/-- A reporting call leaves the stored cancellation func as it is. -/
theorem call_runCancel (D : Deps) (c : ClientCommon) (call : ReportingCall) :
    (c.call D call).2.runCancel = c.runCancel := by
  cases call <;> simp only [ClientCommon.call]
  · simp only [ClientCommon.SetAgentDescription]; split <;> rfl
  · simp only [ClientCommon.SetHealth]; split <;> rfl
  · simp only [ClientCommon.SetRemoteConfigStatus]
    repeat' split
    all_goals rfl
  · simp only [ClientCommon.SetPackageStatuses]
    repeat' split
    all_goals rfl
  · simp only [ClientCommon.SetCustomCapabilities]; split <;> rfl
  · rfl
  · simp only [ClientCommon.UpdateEffectiveConfig]
    repeat' split
    all_goals rfl
  · rfl

/-- Every operation keeps the lifecycle invariant. -/
theorem apply_keeps_lifecycle (D : Deps) (state : ClientCommon × Runtime) (op : Operation)
    (h : state.1.lifecycleInvariant) :
    (ClientCommon.apply D state op).1.lifecycleInvariant := by
  obtain ⟨h1, h2⟩ := h
  simp only [ClientCommon.lifecycleInvariant]
  cases op with
  | PrepareStart settings =>
    simp only [ClientCommon.apply, PrepareStart_isStarted, PrepareStart_isStoppingFlag,
      PrepareStart_runCancel]
    exact ⟨h1, h2⟩
  | StartConnectAndRun runner =>
    simp only [ClientCommon.apply, ClientCommon.StartConnectAndRun]
    split
    · exact ⟨h1, h2⟩
    · simp
  | Stop waited =>
    simp only [ClientCommon.apply, ClientCommon.Stop]
    cases hs : state.1.isStarted
    · simp only [Bool.not_false, if_true]
      exact ⟨h1, h2⟩
    · rcases hc : state.1.runCancel with _ | ctx
      · exact absurd hc (h2 hs)
      · cases waited <;> simp [hs, hc]
  | PrepareFirstMessage ctx =>
    simp only [ClientCommon.apply, ClientCommon.PrepareFirstMessage]
    repeat' split
    all_goals exact ⟨h1, h2⟩
  | Report call =>
    simp only [ClientCommon.apply, call_isStarted, call_isStoppingFlag, call_runCancel]
    exact ⟨h1, h2⟩
  | SendCustomMessage message =>
    simp only [ClientCommon.apply, ClientCommon.SendCustomMessage]
    repeat' split
    all_goals exact ⟨h1, h2⟩

/-- Every sequence of operations keeps the lifecycle invariant. -/
theorem applyAll_keeps_lifecycle (D : Deps) (ops : List Operation) :
    ∀ state : ClientCommon × Runtime, state.1.lifecycleInvariant →
      (ClientCommon.applyAll D state ops).1.lifecycleInvariant := by
  induction ops with
  | nil => intro state h; exact h
  | cons op rest ih =>
    intro state h
    exact ih (ClientCommon.apply D state op) (apply_keeps_lifecycle D state op h)

/-- C21. In every state reached from a new client by any sequence of operations
(`PrepareStart`, `StartConnectAndRun` and `Stop` among them, each run to its end), the
stopping flag is set only if the started flag is set, and the started flag is set only if a
cancellation func is stored.  Hence `Stop` never panics on a missing cancellation func:
past its not-started check it finds one stored; and when no `StartConnectAndRun` was
called before, `StartConnectAndRun` marks the client started, stores the cancellation func
of the context it creates and launches the runner with it. -/
theorem lifecycle_invariant_reachable (D : Deps) (sender : SenderCommon) (rt : Runtime)
    (ops : List Operation) :
    ((ClientCommon.applyAll D (NewClientCommon sender, rt) ops).1.isStoppingFlag = true →
      (ClientCommon.applyAll D (NewClientCommon sender, rt) ops).1.isStarted = true) ∧
    ((ClientCommon.applyAll D (NewClientCommon sender, rt) ops).1.isStarted = true →
      (ClientCommon.applyAll D (NewClientCommon sender, rt) ops).1.runCancel ≠ none) ∧
    (∀ waited,
      ((ClientCommon.applyAll D (NewClientCommon sender, rt) ops).1.Stop
        (ClientCommon.applyAll D (NewClientCommon sender, rt) ops).2 waited).1 ≠ .panic) ∧
    ((∀ op ∈ ops, op.isStartConnectAndRun = false) → ∀ runner,
      (ClientCommon.applyAll D (NewClientCommon sender, rt)
        (ops ++ [.StartConnectAndRun runner])).1.isStarted = true ∧
      (ClientCommon.applyAll D (NewClientCommon sender, rt)
        (ops ++ [.StartConnectAndRun runner])).1.runCancel = some rt.contexts ∧
      (ClientCommon.applyAll D (NewClientCommon sender, rt)
        (ops ++ [.StartConnectAndRun runner])).2.runners = (runner, rt.contexts) :: rt.runners ∧
      (ClientCommon.applyAll D (NewClientCommon sender, rt)
        (ops ++ [.StartConnectAndRun runner])).2.cancelled = rt.cancelled) := by
  have hnew : (NewClientCommon sender, rt).1.lifecycleInvariant := by
    simp [ClientCommon.lifecycleInvariant, NewClientCommon]
  obtain ⟨h1, h2⟩ := applyAll_keeps_lifecycle D ops (NewClientCommon sender, rt) hnew
  refine ⟨h1, h2, fun waited => ?_, fun hops runner => ?_⟩
  · simp only [ClientCommon.Stop]
    cases hs : (ClientCommon.applyAll D (NewClientCommon sender, rt) ops).1.isStarted
    · simp
    · rcases hc : (ClientCommon.applyAll D (NewClientCommon sender, rt) ops).1.runCancel
        with _ | ctx
      · exact absurd hc (h2 hs)
      · cases waited <;> simp
  · obtain ⟨⟨_, hf⟩, hrt⟩ := applyAll_before_start D ops (NewClientCommon sender, rt) hops
      ⟨rfl, rfl⟩
    simp only [ClientCommon.applyAll, List.foldl_append, List.foldl_cons, List.foldl_nil]
    simp only [ClientCommon.applyAll] at hf hrt
    simp [ClientCommon.apply, ClientCommon.StartConnectAndRun, hf, hrt]

/-- C21, at a concrete input: after a prepared start, a start, a stop and another start
the invariant holds and a further `Stop` does not panic; and the first start after a
description and a prepared start launches the runner. -/
theorem lifecycle_invariant_witness :
    ((ClientCommon.applyAll opampDeps (NewClientCommon idleSender, freshRuntime)
      [.Report (.SetAgentDescription (some sampleDescription)),
        .PrepareStart (settingsWith 0x1 none), .StartConnectAndRun 0, .Stop none,
        .StartConnectAndRun 1]).1.runCancel ≠ none) ∧
    (ClientCommon.applyAll opampDeps (NewClientCommon idleSender, freshRuntime)
      ([.Report (.SetAgentDescription (some sampleDescription)),
        .PrepareStart (settingsWith 0x1 none)] ++ [.StartConnectAndRun 5])).2.runners =
      [(5, 0)] :=
  ⟨(lifecycle_invariant_reachable opampDeps idleSender freshRuntime
      [.Report (.SetAgentDescription (some sampleDescription)),
        .PrepareStart (settingsWith 0x1 none), .StartConnectAndRun 0, .Stop none,
        .StartConnectAndRun 1]).2.1 (by decide),
   ((lifecycle_invariant_reachable opampDeps idleSender freshRuntime
      [.Report (.SetAgentDescription (some sampleDescription)),
        .PrepareStart (settingsWith 0x1 none)]).2.2.2
      (by intro op hop; simp at hop; rcases hop with rfl | rfl <;> rfl) 5).2.2.1⟩

end OpAMP
